import Mathlib

/-!
Verification of the askLio procurement system's extraction pipeline.

The development shallowly embeds the Python sources:
  * `extraction_schema.py` — `normalize_price`, the `OrderLine` and
    `ProcurementData` pydantic models (validation and `model_dump`);
  * `src/app.py` and `test/app.py` — the two near-identical variants of the
    extraction orchestrator `extract_data_via_ai` (namespaces `SrcApp` and
    `TestApp`), `extract_text_from_pdf`, and the upload branch of
    `new_request`.

Python strings are modelled as `List Char`, Python floats as `ℚ`, JSON
values as the inductive `Json`, Python dicts as insertion-ordered
association lists, and exceptions as `Except`/`Option` results.  External
collaborators (the OpenAI client, `pypdf`'s `PdfReader`) are abstracted as
their delivered results, exactly at the interface the spec assigns them.
-/

/-! ### Python string primitives, modelled on `List Char` -/

/-- The whitespace set of Python's `str.strip()` (ASCII part). -/
def pyWs (c : Char) : Bool :=
  c == ' ' || c == '\t' || c == '\n' || c == '\r' || c == '\x0b' || c == '\x0c'

/-- `s.strip()`: drop leading and trailing whitespace. -/
def pyStripL (l : List Char) : List Char :=
  ((l.dropWhile pyWs).reverse.dropWhile pyWs).reverse

/-- Does `pat` occur as a prefix of `s`? (Pattern is the first argument.) -/
def startsL : List Char → List Char → Bool
  | [], _ => true
  | _ :: _, [] => false
  | p :: ps, c :: cs => p == c && startsL ps cs

/-- Python's `pat in s` substring test. -/
def containsL (pat : List Char) : List Char → Bool
  | [] => pat.isEmpty
  | c :: t => startsL pat (c :: t) || containsL pat t

/-- Fuel-driven worker for `str.replace`: replaces each non-overlapping
occurrence of `pat` (scanned left to right) by `rep`.  With
`fuel ≥ length of the input` it computes Python's behaviour for a
non-empty pattern. -/
def replFuel (pat rep : List Char) : Nat → List Char → List Char
  | 0, s => s
  | _ + 1, [] => []
  | fuel + 1, c :: t =>
    match pat with
    | [] => c :: t
    | p :: ps =>
      if startsL (p :: ps) (c :: t) then rep ++ replFuel (p :: ps) rep fuel (t.drop ps.length)
      else c :: replFuel (p :: ps) rep fuel t

/-- Python's `s.replace(pat, rep)` for a non-empty pattern. -/
def pyReplace (s pat rep : List Char) : List Char :=
  replFuel pat rep (s.length + 1) s

/-- Fuel-driven worker for `str.split(pat)` with a non-empty separator. -/
def splitFuel (pat : List Char) : Nat → List Char → List Char → List (List Char)
  | 0, acc, s => [acc ++ s]
  | _ + 1, acc, [] => [acc]
  | fuel + 1, acc, c :: t =>
    match pat with
    | [] => [acc ++ c :: t]
    | p :: ps =>
      if startsL (p :: ps) (c :: t) then acc :: splitFuel (p :: ps) fuel [] (t.drop ps.length)
      else splitFuel (p :: ps) fuel (acc ++ [c]) t

/-- Python's `s.split(pat)` for a non-empty separator. -/
def pySplit (s pat : List Char) : List (List Char) :=
  splitFuel pat (s.length + 1) [] s

/-- Python's `s.rfind(c)`: index of the last occurrence, `-1` if absent. -/
def rfindChar : List Char → Char → Int
  | [], _ => -1
  | c :: t, ch =>
    let r := rfindChar t ch
    if r ≥ 0 then r + 1 else if c == ch then 0 else -1

/-! ### Python `float()` parsing, modelled into `ℚ`

The common decimal core of Python's float literals is modelled: optional
sign, digits with at most one decimal point (at least one digit overall),
and an optional exponent part.  Exotic spellings (`inf`, `nan`, digit
underscores) are outside the model; none is reachable from the price and
JSON inputs this development reasons about. -/

/-- Numeric value of a digit list. -/
def digitsToNat (ds : List Char) : Nat :=
  ds.foldl (fun a c => a * 10 + (c.toNat - '0'.toNat)) 0

/-- Parse the optional exponent suffix and assemble the rational value from
a scaled integer mantissa `mant` and a fractional length `fracLen`. -/
def parseFloatExp (mant : Int) (fracLen : Nat) : List Char → Option ℚ
  | [] => some (mkRat mant (10 ^ fracLen))
  | e :: t =>
    if e == 'e' || e == 'E' then
      let st : Bool × List Char :=
        match t with
        | '+' :: u => (false, u)
        | '-' :: u => (true, u)
        | u => (false, u)
      let eds := st.2.takeWhile Char.isDigit
      let rest := st.2.dropWhile Char.isDigit
      if eds.isEmpty || !rest.isEmpty then none
      else if st.1 then some (mkRat mant (10 ^ fracLen * 10 ^ digitsToNat eds))
      else some (mkRat (mant * 10 ^ digitsToNat eds) (10 ^ fracLen))
    else none

/-- Parse a decimal float literal into an exact rational; `none` models a
`ValueError` from Python's `float()`. -/
def parseFloat (l : List Char) : Option ℚ :=
  let sl : Int × List Char :=
    match l with
    | '+' :: t => (1, t)
    | '-' :: t => (-1, t)
    | t => (1, t)
  let sgn := sl.1
  let l1 := sl.2
  let ds1 := l1.takeWhile Char.isDigit
  let r1 := l1.dropWhile Char.isDigit
  let fr : List Char × List Char :=
    match r1 with
    | '.' :: t => (t.takeWhile Char.isDigit, t.dropWhile Char.isDigit)
    | t => ([], t)
  let ds2 := fr.1
  let r2 := fr.2
  if ds1.isEmpty && ds2.isEmpty then none
  else parseFloatExp (sgn * (digitsToNat ds1 * 10 ^ ds2.length + digitsToNat ds2)) ds2.length r2

/-! ### `normalize_price` (extraction_schema.py, lines 6–28) -/

/-- The currency-stripping preamble of `normalize_price`:
`str(price_str).replace('€', '').replace('EUR', '').strip()`. -/
def price_core (s : String) : List Char :=
  pyStripL (pyReplace (pyReplace s.data ['€'] []) ['E', 'U', 'R'] [])

/-- The separator-disambiguation step of `normalize_price`. -/
def price_sepfix (l : List Char) : List Char :=
  if l.contains ',' && l.contains '.' then
    if rfindChar l '.' < rfindChar l ',' then
      pyReplace (pyReplace l ['.'] []) [','] ['.']
    else
      pyReplace l [','] []
  else if l.contains ',' then
    pyReplace l [','] ['.']
  else l

/-- `float(x)` with the `except ValueError: return 0.0` policy. -/
def floatOrZero (l : List Char) : ℚ :=
  match parseFloat l with
  | some q => q
  | none => 0

/-- `normalize_price` from `extraction_schema.py`.  `none` models a `None`
argument; Python's falsiness test `if not price_str` sends both `None` and
`""` to `0.0`. -/
def normalize_price : Option String → ℚ
  | none => 0
  | some s =>
    if s = "" then 0
    else floatOrZero (pyReplace (price_sepfix (price_core s)) [' '] [])

/-- The locale-disambiguation rule exactly as the specification words it:
"If the period occurs after the last comma, treat period as
thousands-separator and comma as decimal point.  Otherwise treat comma as
thousands-separator."  This is the spec-side reading used to compare the
claim against the code (which orients the comparison the other way). -/
def spec_normalize_price : Option String → ℚ
  | none => 0
  | some s =>
    if s = "" then 0
    else
      let l := price_core s
      let l2 :=
        if l.contains ',' && l.contains '.' then
          if rfindChar l '.' > rfindChar l ',' then
            pyReplace (pyReplace l ['.'] []) [','] ['.']
          else
            pyReplace l [','] []
        else if l.contains ',' then
          pyReplace l [','] ['.']
        else l
      floatOrZero (pyReplace l2 [' '] [])

/-! ### JSON values and Python dict semantics -/

/-- JSON values as delivered by `json.loads`; Python dicts are
insertion-ordered association lists. -/
inductive Json where
  | null
  | bool (b : Bool)
  | num (q : ℚ)
  | str (s : String)
  | arr (xs : List Json)
  | obj (fields : List (String × Json))

/-- `d[k]` / `k in d` lookup (first binding wins; parsed objects never
carry duplicate keys). -/
def pyLookup : List (String × Json) → String → Option Json
  | [], _ => none
  | (k', v) :: t, k => if k' = k then some v else pyLookup t k

/-- Python's `k in d`. -/
def pyHasKey (d : List (String × Json)) (k : String) : Bool :=
  (pyLookup d k).isSome

/-- Replace the value of every binding of `k` in place. -/
def pyDictSetRepl : List (String × Json) → String → Json → List (String × Json)
  | [], _, _ => []
  | (k', v') :: t, k, v =>
    if k' = k then (k', v) :: pyDictSetRepl t k v else (k', v') :: pyDictSetRepl t k v

/-- `d[k] = v`: replace the value in place when the key exists, else append
(insertion order). -/
def pyDictSet (d : List (String × Json)) (k : String) (v : Json) : List (String × Json) :=
  if pyHasKey d k then pyDictSetRepl d k v else d ++ [(k, v)]

/-- `d.pop(k)` (the removal part); removes every binding of `k`. -/
def pyDictPop (d : List (String × Json)) (k : String) : List (String × Json) :=
  d.filter (fun p => !(p.1 == k))

/-- `d[target] = d.pop(source)` guarded by `source in d`: the key-rename
idiom of the Stage-B repair code. -/
def renameKey (d : List (String × Json)) (src tgt : String) : List (String × Json) :=
  match pyLookup d src with
  | none => d
  | some v => pyDictSet (pyDictPop d src) tgt v

/-! ### A JSON text parser (models `json.loads` /
`ProcurementData.model_validate_json`'s parsing phase)

Standard JSON (RFC 8259).  The nonstandard `NaN`/`Infinity` extensions of
Python's parser are not modelled; they cannot produce a schema-valid or
Stage-B-repairable record, so every claim settled here is unaffected. -/

/-- JSON whitespace. -/
def jsonWs (c : Char) : Bool :=
  c == ' ' || c == '\t' || c == '\n' || c == '\r'

/-- Skip JSON whitespace. -/
def skipWs (l : List Char) : List Char :=
  l.dropWhile jsonWs

/-- Hexadecimal digit value. -/
def hexVal (c : Char) : Option Nat :=
  let n := c.toNat
  if 47 < n ∧ n < 58 then some (n - 48)
  else if 96 < n ∧ n < 103 then some (n - 87)
  else if 64 < n ∧ n < 71 then some (n - 55)
  else none

/-- Parse the body of a JSON string (after the opening quote), returning
the decoded characters and the remainder after the closing quote. -/
def parseJStr : Nat → List Char → Option (List Char × List Char)
  | 0, _ => none
  | _ + 1, [] => none
  | fuel + 1, c :: t =>
    if c == '"' then some ([], t)
    else if c == '\\' then
      match t with
      | [] => none
      | e :: t2 =>
        let esc : Option (Char × List Char) :=
          if e == '"' then some ('"', t2)
          else if e == '\\' then some ('\\', t2)
          else if e == '/' then some ('/', t2)
          else if e == 'b' then some ('\x08', t2)
          else if e == 'f' then some ('\x0c', t2)
          else if e == 'n' then some ('\n', t2)
          else if e == 'r' then some ('\r', t2)
          else if e == 't' then some ('\t', t2)
          else if e == 'u' then
            match t2 with
            | h1 :: h2 :: h3 :: h4 :: t3 =>
              match hexVal h1, hexVal h2, hexVal h3, hexVal h4 with
              | some a, some b, some c', some d =>
                some (Char.ofNat (((a * 16 + b) * 16 + c') * 16 + d), t3)
              | _, _, _, _ => none
            | _ => none
          else none
        match esc with
        | none => none
        | some (ch, rest) =>
          match parseJStr fuel rest with
          | none => none
          | some (cs, r) => some (ch :: cs, r)
    else if c.toNat < 0x20 then none
    else
      match parseJStr fuel t with
      | none => none
      | some (cs, r) => some (c :: cs, r)

/-- Assemble a JSON number from sign, integer digits, fraction digits and
an optional exponent suffix at the head of `r`. -/
def parseJNumExp (sgn : Int) (ds1 ds2 : List Char) (r : List Char) :
    Option (ℚ × List Char) :=
  let mant : Int := sgn * (digitsToNat ds1 * 10 ^ ds2.length + digitsToNat ds2)
  match r with
  | [] => some (mkRat mant (10 ^ ds2.length), [])
  | e :: t =>
    if e == 'e' || e == 'E' then
      let st : Bool × List Char :=
        match t with
        | '+' :: u => (false, u)
        | '-' :: u => (true, u)
        | u => (false, u)
      let eds := st.2.takeWhile Char.isDigit
      let rest := st.2.dropWhile Char.isDigit
      if eds.isEmpty then none
      else if st.1 then some (mkRat mant (10 ^ ds2.length * 10 ^ digitsToNat eds), rest)
      else some (mkRat (mant * 10 ^ digitsToNat eds) (10 ^ ds2.length), rest)
    else some (mkRat mant (10 ^ ds2.length), e :: t)

/-- Parse a JSON number at the head of `l`. -/
def parseJNum (l : List Char) : Option (ℚ × List Char) :=
  let sl : Int × List Char :=
    match l with
    | '-' :: t => (-1, t)
    | t => (1, t)
  let ds1 := sl.2.takeWhile Char.isDigit
  let r1 := sl.2.dropWhile Char.isDigit
  if ds1.isEmpty then none
  else if decide (1 < ds1.length) && ds1.head? == some '0' then none
  else
    match r1 with
    | '.' :: t =>
      let ds2 := t.takeWhile Char.isDigit
      if ds2.isEmpty then none
      else parseJNumExp sl.1 ds1 ds2 (t.dropWhile Char.isDigit)
    | _ => parseJNumExp sl.1 ds1 [] r1

/-- Intermediate results of the JSON parser: a value, a list of array
elements, or a list of object members. -/
inductive JRes where
  | v (j : Json)
  | vs (js : List Json)
  | fs (l : List (String × Json))

/-- The fuel-driven JSON parser.  `mode 0` parses one value, `mode 1` the
elements of a non-empty array (after `[`), `mode 2` the members of a
non-empty object (after `{`). -/
def parseJ : Nat → Nat → List Char → Option (JRes × List Char)
  | 0, _, _ => none
  | fuel + 1, mode, l =>
    if mode == 0 then
      match skipWs l with
      | [] => none
      | c :: t =>
        if c == 'n' then
          if startsL ['u', 'l', 'l'] t then some (.v .null, t.drop 3) else none
        else if c == 't' then
          if startsL ['r', 'u', 'e'] t then some (.v (.bool true), t.drop 3) else none
        else if c == 'f' then
          if startsL ['a', 'l', 's', 'e'] t then some (.v (.bool false), t.drop 4) else none
        else if c == '"' then
          match parseJStr fuel t with
          | some (cs, r) => some (.v (.str (String.mk cs)), r)
          | none => none
        else if c == '[' then
          match skipWs t with
          | ']' :: r => some (.v (.arr []), r)
          | u =>
            match parseJ fuel 1 u with
            | some (.vs js, r) => some (.v (.arr js), r)
            | _ => none
        else if c == '{' then
          match skipWs t with
          | '}' :: r => some (.v (.obj []), r)
          | u =>
            match parseJ fuel 2 u with
            | some (.fs prs, r) =>
              some (.v (.obj (prs.foldl (fun d p => pyDictSet d p.1 p.2) [])), r)
            | _ => none
        else
          match parseJNum (c :: t) with
          | some (q, r) => some (.v (.num q), r)
          | none => none
    else if mode == 1 then
      match parseJ fuel 0 l with
      | some (.v j, r) =>
        match skipWs r with
        | ',' :: r2 =>
          match parseJ fuel 1 r2 with
          | some (.vs js, r3) => some (.vs (j :: js), r3)
          | _ => none
        | ']' :: r2 => some (.vs [j], r2)
        | _ => none
      | _ => none
    else
      match skipWs l with
      | '"' :: t =>
        match parseJStr fuel t with
        | some (ks, r) =>
          match skipWs r with
          | ':' :: r2 =>
            match parseJ fuel 0 r2 with
            | some (.v j, r3) =>
              match skipWs r3 with
              | ',' :: r4 =>
                match parseJ fuel 2 r4 with
                | some (.fs prs, r5) => some (.fs ((String.mk ks, j) :: prs), r5)
                | _ => none
              | '}' :: r4 => some (.fs [(String.mk ks, j)], r4)
              | _ => none
            | _ => none
          | _ => none
        | none => none
      | _ => none

/-- `json.loads`: parse a complete JSON document. -/
def parseJson (l : List Char) : Option Json :=
  match parseJ (2 * l.length + 8) 0 l with
  | some (.v j, r) => if skipWs r = [] then some j else none
  | _ => none

/-! ### The pydantic models (extraction_schema.py, lines 31–49) -/

/-- `OrderLine`: one line item of an offer. -/
structure OrderLine where
  description : String
  unit_price : ℚ
  amount : ℚ
  unit : String
  total_price : ℚ

/-- `ProcurementData`: the declared target record — note that it has no
`commodity_group` field. -/
structure ProcurementData where
  requestor_name : String
  title : String
  vendor_name : String
  vat_id : String
  total_cost : ℚ
  department : String
  extracted_description_text : String
  order_lines : List OrderLine

/-- pydantic lax coercion into a `float` field: JSON numbers pass through,
numeric strings are parsed, everything else is rejected. -/
def jsonToFloat : Json → Option ℚ
  | .num q => some q
  | .str s => parseFloat s.data
  | _ => none

/-- A required `str` field. -/
def reqStr (fs : List (String × Json)) (k : String) : Except String String :=
  match pyLookup fs k with
  | some (.str s) => .ok s
  | some _ => .error (k ++ ": string expected")
  | none => .error (k ++ ": field required")

/-- A `str` field with a declared default. -/
def optStr (fs : List (String × Json)) (k : String) (dflt : String) :
    Except String String :=
  match pyLookup fs k with
  | none => .ok dflt
  | some (.str s) => .ok s
  | some _ => .error (k ++ ": string expected")

/-- A required `float` field. -/
def reqFloat (fs : List (String × Json)) (k : String) : Except String ℚ :=
  match pyLookup fs k with
  | none => .error (k ++ ": field required")
  | some j =>
    match jsonToFloat j with
    | some q => .ok q
    | none => .error (k ++ ": number expected")

/-- Validate one order line against the `OrderLine` model. -/
def validateOrderLine : Json → Except String OrderLine
  | .obj lf =>
    match reqStr lf "description" with
    | .error e => .error e
    | .ok d =>
      match reqFloat lf "unit_price" with
      | .error e => .error e
      | .ok up =>
        match reqFloat lf "amount" with
        | .error e => .error e
        | .ok am =>
          match reqStr lf "unit" with
          | .error e => .error e
          | .ok u =>
            match reqFloat lf "total_price" with
            | .error e => .error e
            | .ok tp => .ok ⟨d, up, am, u, tp⟩
  | _ => .error "order line: object expected"

/-- Validate every order line; any failing line fails the whole list. -/
def validateLines : List Json → Except String (List OrderLine)
  | [] => .ok []
  | l :: t =>
    match validateOrderLine l with
    | .error e => .error e
    | .ok r =>
      match validateLines t with
      | .error e => .error e
      | .ok rs => .ok (r :: rs)

/-- Validate the fields of a candidate object against `ProcurementData`
(declaration order; unknown keys such as `commodity_group` are ignored,
pydantic's default `extra` policy). -/
def validateFields (fs : List (String × Json)) : Except String ProcurementData :=
  match optStr fs "requestor_name" "Vladimir Keil" with
  | .error e => .error e
  | .ok rn =>
    match reqStr fs "title" with
    | .error e => .error e
    | .ok ti =>
      match reqStr fs "vendor_name" with
      | .error e => .error e
      | .ok vn =>
        match reqStr fs "vat_id" with
        | .error e => .error e
        | .ok vi =>
          match reqFloat fs "total_cost" with
          | .error e => .error e
          | .ok tc =>
            match optStr fs "department" "Operations" with
            | .error e => .error e
            | .ok dp =>
              match reqStr fs "extracted_description_text" with
              | .error e => .error e
              | .ok ed =>
                match pyLookup fs "order_lines" with
                | some (.arr ls) =>
                  match validateLines ls with
                  | .error e => .error e
                  | .ok lines => .ok ⟨rn, ti, vn, vi, tc, dp, ed, lines⟩
                | some _ => .error "order_lines: list expected"
                | none => .error "order_lines: field required"

/-- `ProcurementData.model_validate`: a candidate must be a JSON object. -/
def ProcurementData.model_validate (j : Json) : Except String ProcurementData :=
  match j with
  | .obj fs => validateFields fs
  | _ => .error "object expected"

/-- `model_dump` of one order line. -/
def dumpOrderLine (r : OrderLine) : Json :=
  .obj [("description", .str r.description), ("unit_price", .num r.unit_price),
        ("amount", .num r.amount), ("unit", .str r.unit),
        ("total_price", .num r.total_price)]

/-- `ProcurementData.model_dump`: exactly the eight declared fields, in
declaration order. -/
def ProcurementData.model_dump (r : ProcurementData) : Json :=
  .obj [("requestor_name", .str r.requestor_name), ("title", .str r.title),
        ("vendor_name", .str r.vendor_name), ("vat_id", .str r.vat_id),
        ("total_cost", .num r.total_cost), ("department", .str r.department),
        ("extracted_description_text", .str r.extracted_description_text),
        ("order_lines", .arr (r.order_lines.map dumpOrderLine))]

/-! ### Shared app-level constants and helpers (src/app.py, test/app.py) -/

/-- The official master list of 50 Commodity Groups (src/app.py, lines
30–43).  It feeds the prompt and the UI dropdown only; the pydantic schema
never consults it. -/
def COMMODITY_GROUPS : List String :=
  ["Accommodation Rentals", "Membership Fees", "Workplace Safety", "Consulting",
   "Financial Services", "Fleet Management", "Recruitment Services", "Professional Development",
   "Miscellaneous Services", "Insurance", "Electrical Engineering", "Facility Management Services",
   "Security", "Renovations", "Office Equipment", "Energy Management", "Maintenance",
   "Cafeteria and Kitchenettes", "Cleaning", "Audio and Visual Production", "Books/Videos/CDs",
   "Printing Costs", "Software Development for Publishing", "Material Costs", "Shipping for Production",
   "Digital Product Development", "Pre-production", "Post-production Costs", "Hardware",
   "IT Services", "Software", "Courier, Express, and Postal Services", "Warehousing and Material Handling",
   "Transportation Logistics", "Delivery Services", "Advertising", "Outdoor Advertising",
   "Marketing Agencies", "Direct Mail", "Customer Communication", "Online Marketing",
   "Events", "Promotional Materials", "Warehouse and Operational Equipment", "Production Machinery",
   "Spare Parts", "Internal Transportation", "Production Materials", "Consumables", "Maintenance and Repairs"]

/-- The backquote character (code point 96). -/
def bq : Char := Char.ofNat 96

/-- The markdown fence token (three backquotes). -/
def fenceTok : List Char := [bq, bq, bq]

/-- The substring `"json"` removed from fenced payloads. -/
def jsonTok : List Char := ['j', 's', 'o', 'n']

/-- The response-normalisation step shared by both orchestrator variants:
`content = response.strip()`; then, when a fence occurs,
`content.split("```")[1].replace("json", "").strip()`. -/
def cleanContent (raw : String) : List Char :=
  let c := pyStripL raw.data
  if containsL fenceTok c then
    pyStripL (pyReplace (((pySplit c fenceTok).getD 1 [])) jsonTok [])
  else c

/-- Python's `"s" in xs` for a list: equality against each element (only
string elements can equal a string). -/
def hasStrElem (xs : List Json) (s : String) : Bool :=
  xs.any (fun x =>
    match x with
    | .str t => t == s
    | _ => false)

/-- Python truthiness of a JSON-shaped value (`if ai_data:`). -/
def jsonTruthy : Json → Bool
  | .null => false
  | .bool b => b
  | .num q => !(q == 0)
  | .str s => !(s == "")
  | .arr xs => !xs.isEmpty
  | .obj fs => !fs.isEmpty

/-- Worker for `pyDictUpdate` on a pair sequence. -/
def pyUpdatePairs : List (String × Json) → List Json → Except String (List (String × Json))
  | d, [] => .ok d
  | d, .arr [.str k, v] :: t => pyUpdatePairs (pyDictSet d k v) t
  | _, _ :: _ => .error "cannot convert update sequence element"

/-- `d.update(x)` on a string-keyed dict: a mapping merges key by key; a
sequence must consist of string-keyed pairs; anything else raises. -/
def pyDictUpdate (d : List (String × Json)) : Json → Except String (List (String × Json))
  | .obj fs => .ok (fs.foldl (fun acc p => pyDictSet acc p.1 p.2) d)
  | .arr xs => pyUpdatePairs d xs
  | _ => .error "update expected a mapping or pair sequence"

/-- Concatenate the non-blank page texts, newline-separated. -/
def joinPages : List (Option String) → List Char
  | [] => []
  | p :: t =>
    match p with
    | some s => if s = "" then joinPages t else s.data ++ '\n' :: joinPages t
    | none => joinPages t

/-- `extract_text_from_pdf`: `pypdf`'s reader is abstracted by its
outcome — a structural failure (`Except.error`) or the `extract_text()`
result of each page.  Only the first 3 pages are read; blank pages
contribute nothing; each contributing page is followed by a newline; the
result is stripped.  A structural failure returns the empty string. -/
def extract_text_from_pdf (pages : Except String (List (Option String))) : String :=
  match pages with
  | .error _ => ""
  | .ok ps => String.mk (pyStripL (joinPages (ps.take 3)))

/-! ### The orchestrator of test/app.py (namespace `TestApp`) -/

namespace TestApp

/-- The per-line key repairs of Stage B (test/app.py, lines 121–125):
`item`→`description`, `price`→`unit_price`, `quantity`→`amount`,
`total`→`total_price`; each applies whenever the old key is present and
assigns over any existing new-named key. -/
def fixLineObj (d : List (String × Json)) : List (String × Json) :=
  renameKey (renameKey (renameKey (renameKey d "item" "description")
    "price" "unit_price") "quantity" "amount") "total" "total_price"

/-- One pass of the Stage-B line loop.  A non-dict line follows Python's
operational behaviour: a string iterates without a 4-plus-character
substring ever matching inside a 1-character slice only when the checks
are on the line itself — here the line IS the candidate, so `in` is a
substring test for strings, an element test for lists, and a `TypeError`
(→ Stage C) for anything else; a matching old key on a non-dict raises at
`line.pop` (→ Stage C). -/
def fixLine : Json → Except Unit Json
  | .obj d => .ok (.obj (fixLineObj d))
  | .str s =>
    if containsL ['i', 't', 'e', 'm'] s.data || containsL ['p', 'r', 'i', 'c', 'e'] s.data
        || containsL ['q', 'u', 'a', 'n', 't', 'i', 't', 'y'] s.data
        || containsL ['t', 'o', 't', 'a', 'l'] s.data then .error ()
    else .ok (.str s)
  | .arr xs =>
    if hasStrElem xs "item" || hasStrElem xs "price" || hasStrElem xs "quantity"
        || hasStrElem xs "total" then .error ()
    else .ok (.arr xs)
  | _ => .error ()

/-- Apply `fixLine` to every order line; any raising line aborts to
Stage C. -/
def fixLines : List Json → Except Unit (List Json)
  | [] => .ok []
  | l :: t =>
    match fixLine l with
    | .error e => .error e
    | .ok l' =>
      match fixLines t with
      | .error e => .error e
      | .ok t' => .ok (l' :: t')

/-- The guarded top-level rename of Stage B (test/app.py, lines 118–119):
`if "items" in raw_data and "order_lines" not in raw_data:
raw_data["order_lines"] = raw_data.pop("items")`. -/
def topFix (d : List (String × Json)) : List (String × Json) :=
  if pyHasKey d "items" && !pyHasKey d "order_lines" then renameKey d "items" "order_lines"
  else d

/-- Stage B of test/app.py (lines 113–127): rename a top-level `items` key
to `order_lines` only when no `order_lines` key exists, then repair each
order line.  A non-dict parse or a raising line loop falls through to
Stage C (modelled as `Except.error`). -/
def stageB (j : Json) : Except Unit Json :=
  match j with
  | .obj d =>
    let d1 := topFix d
    match pyLookup d1 "order_lines" with
    | none => .ok (.obj d1)
    | some (.arr ls) =>
      match fixLines ls with
      | .ok ls' => .ok (.obj (pyDictSet d1 "order_lines" (.arr ls')))
      | .error _ => .error ()
    | some (.str _) => .ok (.obj d1)
    | some (.obj od) =>
      if od.any (fun p =>
          containsL ['i', 't', 'e', 'm'] p.1.data || containsL ['p', 'r', 'i', 'c', 'e'] p.1.data
            || containsL ['q', 'u', 'a', 'n', 't', 'i', 't', 'y'] p.1.data
            || containsL ['t', 'o', 't', 'a', 'l'] p.1.data) then .error ()
      else .ok (.obj d1)
    | some _ => .error ()
  | _ => .error ()

/-- The Stage-C default record of test/app.py (lines 130–134). -/
def stageCDefault : Json :=
  .obj [("requestor_name", .str "Vladimir Keil"), ("title", .str "Extraction Error"),
        ("vendor_name", .str "Unknown"), ("vat_id", .str "N/A"),
        ("total_cost", .num 0), ("department", .str "Operations"),
        ("order_lines", .arr []), ("extracted_description_text", .str "")]

/-- `extract_data_via_ai` of test/app.py.  The OpenAI call sits outside
every `try` block, so its outcome is the input: `Except.error` is a
transport/timeout exception from the model service, which the code lets
propagate; `Except.ok` is the delivered response text. -/
def extract_data_via_ai (modelResult : Except String String) : Except String Json :=
  match modelResult with
  | .error e => .error e
  | .ok raw =>
    let content := cleanContent raw
    match parseJson content with
    | none => .ok stageCDefault
    | some j =>
      match ProcurementData.model_validate j with
      | .ok r => .ok r.model_dump
      | .error _ =>
        match stageB j with
        | .ok j' => .ok j'
        | .error _ => .ok stageCDefault

end TestApp

/-! ### The orchestrator of src/app.py (namespace `SrcApp`) -/

namespace SrcApp

/-- Stage B of src/app.py (lines 113–117): only the unguarded top-level
rename `if "items" in raw_data: raw_data["order_lines"] = raw_data.pop("items")`;
no per-line repairs.  Non-dict parses survive when the membership test
passes without raising. -/
def stageB (j : Json) : Except Unit Json :=
  match j with
  | .obj d =>
    .ok (.obj (if pyHasKey d "items" then renameKey d "items" "order_lines" else d))
  | .arr xs => if hasStrElem xs "items" then .error () else .ok (.arr xs)
  | .str s => if containsL ['i', 't', 'e', 'm', 's'] s.data then .error () else .ok (.str s)
  | _ => .error ()

/-- The Stage-C default record of src/app.py (line 119): five keys only —
no `vat_id`, `department` or `extracted_description_text`. -/
def stageCDefault : Json :=
  .obj [("requestor_name", .str "Vladimir Keil"), ("title", .str "Error"),
        ("vendor_name", .str "Unknown"), ("total_cost", .num 0),
        ("order_lines", .arr [])]

/-- `extract_data_via_ai` of src/app.py; same staging as the test variant,
with this file's Stage B and Stage C. -/
def extract_data_via_ai (modelResult : Except String String) : Except String Json :=
  match modelResult with
  | .error e => .error e
  | .ok raw =>
    let content := cleanContent raw
    match parseJson content with
    | none => .ok stageCDefault
    | some j =>
      match ProcurementData.model_validate j with
      | .ok r => .ok r.model_dump
      | .error _ =>
        match stageB j with
        | .ok j' => .ok j'
        | .error _ => .ok stageCDefault

/-- The pre-existing default form data of `new_request` (src/app.py,
lines 135–139). -/
def default_data : List (String × Json) :=
  [("requestor_name", .str "Vladimir Keil"), ("title", .str ""),
   ("vendor_name", .str ""), ("vat_id", .str ""), ("total_cost", .num 0),
   ("department", .str "Operations"), ("order_lines", .arr []),
   ("commodity_group", .str "")]

/-- The upload branch of `new_request` (src/app.py, lines 141–152): extract
text from the uploaded bytes; when it is empty the model is never invoked
and the defaults pass through; otherwise the AI result, when truthy, is
merged over the defaults.  The second component counts model-service
invocations. -/
def new_request_upload (pages : Except String (List (Option String)))
    (modelResult : Except String String) :
    Except String (List (String × Json)) × Nat :=
  let t := extract_text_from_pdf pages
  if t = "" then (.ok default_data, 0)
  else
    match extract_data_via_ai modelResult with
    | .error e => (.error e, 1)
    | .ok ai =>
      if jsonTruthy ai then
        match pyDictUpdate default_data ai with
        | .ok d => (.ok d, 1)
        | .error e => (.error e, 1)
      else (.ok default_data, 1)

end SrcApp

/-! ### Spec-side definitions (§3, §4.4): the ProcurementData shape and
its canonical validated image, written from the specification's words for
the round-trip claim -/

/-- Shape of a required text field. -/
def shapeStr (fs : List (String × Json)) (k : String) : Bool :=
  match pyLookup fs k with
  | some (.str _) => true
  | _ => false

/-- Shape of a defaulted text field: absent or text. -/
def shapeOptStr (fs : List (String × Json)) (k : String) : Bool :=
  match pyLookup fs k with
  | none => true
  | some (.str _) => true
  | some _ => false

/-- Shape of a required numeric field: a JSON number or a numeric
string. -/
def shapeNum (fs : List (String × Json)) (k : String) : Bool :=
  match pyLookup fs k with
  | some j => (jsonToFloat j).isSome
  | none => false

/-- A JSON value satisfying the OrderLine shape of §3. -/
def specWellShapedLine : Json → Bool
  | .obj lf =>
    shapeStr lf "description" && shapeNum lf "unit_price" && shapeNum lf "amount"
      && shapeStr lf "unit" && shapeNum lf "total_price"
  | _ => false

/-- A JSON value satisfying the ProcurementData shape of §3: required text
fields present as text, numeric fields as numbers or numeric strings,
`requestor_name`/`department` optional, and `order_lines` a sequence of
well-shaped lines. -/
def specWellShaped : Json → Bool
  | .obj fs =>
    shapeOptStr fs "requestor_name" && shapeStr fs "title" && shapeStr fs "vendor_name"
      && shapeStr fs "vat_id" && shapeNum fs "total_cost" && shapeOptStr fs "department"
      && shapeStr fs "extracted_description_text"
      && (match pyLookup fs "order_lines" with
          | some (.arr ls) => ls.all specWellShapedLine
          | _ => false)
  | _ => false

/-- Text value of a field, with a default. -/
def getStrD (fs : List (String × Json)) (k : String) (dflt : String) : String :=
  match pyLookup fs k with
  | some (.str s) => s
  | _ => dflt

/-- Numeric value of a field after float coercion. -/
def getNumD (fs : List (String × Json)) (k : String) : ℚ :=
  match pyLookup fs k with
  | some j => (jsonToFloat j).getD 0
  | none => 0

/-- Sequence value of a field. -/
def getArrD (fs : List (String × Json)) (k : String) : List Json :=
  match pyLookup fs k with
  | some (.arr l) => l
  | _ => []

/-- The spec's expected validated image of a well-shaped order line: every
field value carried over unchanged, numeric fields coerced to float. -/
def specCanonLine : Json → Json
  | .obj lf =>
    .obj [("description", .str (getStrD lf "description" "")),
          ("unit_price", .num (getNumD lf "unit_price")),
          ("amount", .num (getNumD lf "amount")),
          ("unit", .str (getStrD lf "unit" "")),
          ("total_price", .num (getNumD lf "total_price"))]
  | _ => .null

/-- The spec's expected validated image of a well-shaped record: the eight
declared fields, values carried over unchanged (numeric coercion aside),
defaults filled for `requestor_name`/`department`. -/
def specCanonRecord : Json → Json
  | .obj fs =>
    .obj [("requestor_name", .str (getStrD fs "requestor_name" "Vladimir Keil")),
          ("title", .str (getStrD fs "title" "")),
          ("vendor_name", .str (getStrD fs "vendor_name" "")),
          ("vat_id", .str (getStrD fs "vat_id" "")),
          ("total_cost", .num (getNumD fs "total_cost")),
          ("department", .str (getStrD fs "department" "Operations")),
          ("extracted_description_text", .str (getStrD fs "extracted_description_text" "")),
          ("order_lines", .arr ((getArrD fs "order_lines").map specCanonLine))]
  | _ => .null

/-! ### Projection helpers used in concrete statements -/

/-- Field of a successfully returned record. -/
def okObjField (r : Except String Json) (k : String) : Option Json :=
  match r with
  | .ok (.obj fs) => pyLookup fs k
  | _ => none

/-- Field of a JSON object. -/
def objField (j : Json) (k : String) : Option Json :=
  match j with
  | .obj fs => pyLookup fs k
  | _ => none

/-- The keys of a JSON object, in order. -/
def dumpKeys (j : Json) : List String :=
  match j with
  | .obj fs => fs.map Prod.fst
  | _ => []

/-- Text content of an optional JSON value. -/
def asStr : Option Json → Option String
  | some (.str s) => some s
  | _ => none

/-! ### Dictionary lemmas -/

theorem pyLookup_cons_ne (k' : String) (v : Json) (fs : List (String × Json))
    (k : String) (h : k' ≠ k) : pyLookup ((k', v) :: fs) k = pyLookup fs k := by
  simp [pyLookup, h]

theorem pyLookup_append (d e : List (String × Json)) (k : String) :
    pyLookup (d ++ e) k = ((pyLookup d k).rec (pyLookup e k) fun v => some v) := by
  induction d with
  | nil => rfl
  | cons p t ih =>
    by_cases h : p.1 = k <;> simp [pyLookup, h, ih]

theorem pyLookup_repl_self (d : List (String × Json)) (k : String) (v : Json)
    (h : pyHasKey d k = true) : pyLookup (pyDictSetRepl d k v) k = some v := by
  induction d with
  | nil => simp [pyHasKey, pyLookup] at h
  | cons p t ih =>
    obtain ⟨k', v'⟩ := p
    by_cases hk : k' = k
    · simp [pyDictSetRepl, pyLookup, hk]
    · simp only [pyHasKey, pyLookup, hk, if_neg] at h
      simp [pyDictSetRepl, pyLookup, hk, ih h]

theorem pyLookup_repl_ne (d : List (String × Json)) (k : String) (v : Json)
    (k' : String) (h : k' ≠ k) :
    pyLookup (pyDictSetRepl d k v) k' = pyLookup d k' := by
  induction d with
  | nil => rfl
  | cons p t ih =>
    obtain ⟨k0, v0⟩ := p
    by_cases hk : k0 = k
    · subst hk
      simp [pyDictSetRepl, pyLookup, Ne.symm h, ih]
    · by_cases hk' : k0 = k'
      · subst hk'
        simp [pyDictSetRepl, pyLookup, hk]
      · simp [pyDictSetRepl, pyLookup, hk, hk', ih]

theorem pyLookup_set_self (d : List (String × Json)) (k : String) (v : Json) :
    pyLookup (pyDictSet d k v) k = some v := by
  unfold pyDictSet
  by_cases h : pyHasKey d k = true
  · simp only [h, if_true]
    exact pyLookup_repl_self d k v h
  · simp only [h, Bool.false_eq_true, if_false]
    rw [pyLookup_append]
    unfold pyHasKey at h
    rcases hl : pyLookup d k with _ | w
    · simp [pyLookup]
    · rw [hl] at h; simp at h

theorem pyLookup_set_ne (d : List (String × Json)) (k : String) (v : Json)
    (k' : String) (h : k' ≠ k) :
    pyLookup (pyDictSet d k v) k' = pyLookup d k' := by
  unfold pyDictSet
  by_cases hk : pyHasKey d k = true
  · simp only [hk, if_true]
    exact pyLookup_repl_ne d k v k' h
  · simp only [hk, Bool.false_eq_true, if_false]
    rw [pyLookup_append]
    rcases hl : pyLookup d k' with _ | w
    · simp [pyLookup, Ne.symm h]
    · simp

theorem pyLookup_pop_self (d : List (String × Json)) (k : String) :
    pyLookup (pyDictPop d k) k = none := by
  induction d with
  | nil => rfl
  | cons p t ih =>
    obtain ⟨k0, v0⟩ := p
    by_cases hk : k0 = k
    · simpa [pyDictPop, List.filter_cons, hk] using ih
    · simpa [pyDictPop, List.filter_cons, hk, pyLookup] using ih

theorem pyLookup_pop_ne (d : List (String × Json)) (k k' : String) (h : k' ≠ k) :
    pyLookup (pyDictPop d k) k' = pyLookup d k' := by
  induction d with
  | nil => rfl
  | cons p t ih =>
    obtain ⟨k0, v0⟩ := p
    by_cases hk : k0 = k
    · subst hk
      simpa [pyDictPop, List.filter_cons, pyLookup, Ne.symm h] using ih
    · by_cases hk' : k0 = k'
      · subst hk'
        simp [pyDictPop, List.filter_cons, pyLookup, hk]
      · simpa [pyDictPop, List.filter_cons, pyLookup, hk, hk'] using ih

theorem renameKey_tgt (d : List (String × Json)) (src tgt : String) (v : Json)
    (h : pyLookup d src = some v) :
    pyLookup (renameKey d src tgt) tgt = some v := by
  unfold renameKey
  rw [h]
  exact pyLookup_set_self _ tgt v

theorem renameKey_src (d : List (String × Json)) (src tgt : String) (v : Json)
    (hne : src ≠ tgt) (h : pyLookup d src = some v) :
    pyLookup (renameKey d src tgt) src = none := by
  unfold renameKey
  rw [h, pyLookup_set_ne _ _ _ _ hne]
  exact pyLookup_pop_self d src

theorem renameKey_absent (d : List (String × Json)) (src tgt : String)
    (h : pyLookup d src = none) : renameKey d src tgt = d := by
  unfold renameKey
  rw [h]

theorem renameKey_other (d : List (String × Json)) (src tgt k : String)
    (h1 : k ≠ src) (h2 : k ≠ tgt) :
    pyLookup (renameKey d src tgt) k = pyLookup d k := by
  unfold renameKey
  rcases hl : pyLookup d src with _ | v
  · rfl
  · rw [pyLookup_set_ne _ _ _ _ h2, pyLookup_pop_ne _ _ _ h1]

/-! ### Helper-invariance and propagation lemmas for the validator -/

theorem reqStr_cons_ne (k0 : String) (v : Json) (fs : List (String × Json))
    (k : String) (h : k0 ≠ k) : reqStr ((k0, v) :: fs) k = reqStr fs k := by
  unfold reqStr
  rw [pyLookup_cons_ne _ _ _ _ h]

theorem optStr_cons_ne (k0 : String) (v : Json) (fs : List (String × Json))
    (k : String) (d : String) (h : k0 ≠ k) :
    optStr ((k0, v) :: fs) k d = optStr fs k d := by
  unfold optStr
  rw [pyLookup_cons_ne _ _ _ _ h]

theorem reqFloat_cons_ne (k0 : String) (v : Json) (fs : List (String × Json))
    (k : String) (h : k0 ≠ k) : reqFloat ((k0, v) :: fs) k = reqFloat fs k := by
  unfold reqFloat
  rw [pyLookup_cons_ne _ _ _ _ h]

set_option maxRecDepth 40000

/-! ### C6 — `normalize_price` is total and never raises -/

/-- C6: `normalize_price` is total: `None` and `""` return `0.0`, and any
input whose normalised form fails to parse as a number also returns `0.0`
instead of raising. -/
theorem normalize_price_total_never_raises :
    normalize_price none = 0 ∧ normalize_price (some "") = 0 ∧
    ∀ s : String,
      parseFloat (pyReplace (price_sepfix (price_core s)) [' '] []) = none →
      normalize_price (some s) = 0 := by
  refine ⟨rfl, rfl, fun s h => ?_⟩
  by_cases hs : s = ""
  · simp [normalize_price, hs]
  · simp [normalize_price, hs, floatOrZero, h]

/-- Witness for C6 at the unparsable input `"not a number"`. -/
theorem normalize_price_total_never_raises_witness :
    parseFloat (pyReplace (price_sepfix (price_core "not a number")) [' '] []) = none ∧
    normalize_price (some "not a number") = 0 :=
  ⟨by decide, normalize_price_total_never_raises.2.2 "not a number" (by decide)⟩

/-! ### C5 — the locale-disambiguation rule of `normalize_price` -/

/-- C5 counterexample: at `"1,759.01"` the period occurs after the last
comma; the claim's rule then treats the period as thousands-separator,
giving `1.75901`, while the code does the opposite and yields `1759.01`.
The claim's quoted general rule contradicts its own worked examples. -/
theorem normalize_price_locale_rule_cex :
    normalize_price (some "1,759.01") = mkRat 175901 100 ∧
    spec_normalize_price (some "1,759.01") = mkRat 175901 100000 ∧
    normalize_price (some "1,759.01") ≠ spec_normalize_price (some "1,759.01") :=
  ⟨by decide, by decide, by decide⟩

/-- C5 amended: with the conditional inverted — when both separators occur,
the period is treated as thousands-separator exactly when it occurs BEFORE
the last comma, otherwise the comma is the thousands-separator; a lone
comma is a decimal point; and the three quoted values hold. -/
theorem normalize_price_locale_rule :
    (∀ s : String, s ≠ "" →
      (price_core s).contains ',' = true → (price_core s).contains '.' = true →
      (rfindChar (price_core s) '.' < rfindChar (price_core s) ',' →
        normalize_price (some s) =
          floatOrZero (pyReplace (pyReplace (pyReplace (price_core s) ['.'] []) [','] ['.'])
            [' '] [])) ∧
      (¬ rfindChar (price_core s) '.' < rfindChar (price_core s) ',' →
        normalize_price (some s) =
          floatOrZero (pyReplace (pyReplace (price_core s) [','] []) [' '] []))) ∧
    (∀ s : String, s ≠ "" →
      (price_core s).contains ',' = true → (price_core s).contains '.' = false →
      normalize_price (some s) =
        floatOrZero (pyReplace (pyReplace (price_core s) [','] ['.']) [' '] [])) ∧
    normalize_price (some "1.759,01") = mkRat 175901 100 ∧
    normalize_price (some "1,500.00") = mkRat 1500 1 ∧
    normalize_price (some "50,5") = mkRat 101 2 := by
  refine ⟨fun s hs hc hd => ⟨fun hlt => ?_, fun hge => ?_⟩,
          fun s hs hc hd => ?_, by decide, by decide, by decide⟩
  · have h0 : normalize_price (some s) =
        floatOrZero (pyReplace (price_sepfix (price_core s)) [' '] []) := by
      simp [normalize_price, hs]
    rw [h0]
    unfold price_sepfix
    rw [hc, hd]
    simp [hlt]
  · have h0 : normalize_price (some s) =
        floatOrZero (pyReplace (price_sepfix (price_core s)) [' '] []) := by
      simp [normalize_price, hs]
    rw [h0]
    unfold price_sepfix
    rw [hc, hd]
    simp [hge]
  · have h0 : normalize_price (some s) =
        floatOrZero (pyReplace (price_sepfix (price_core s)) [' '] []) := by
      simp [normalize_price, hs]
    rw [h0]
    unfold price_sepfix
    rw [hc, hd]
    simp

/-- Witness for C5's amended rule at `"1.759,01"` (both separators, comma
rightmost) and `"50,5"` (comma only). -/
theorem normalize_price_locale_rule_witness :
    normalize_price (some "1.759,01") =
      floatOrZero (pyReplace (pyReplace (pyReplace (price_core "1.759,01") ['.'] [])
        [','] ['.']) [' '] []) ∧
    normalize_price (some "50,5") =
      floatOrZero (pyReplace (pyReplace (price_core "50,5") [','] ['.']) [' '] []) :=
  ⟨(normalize_price_locale_rule.1 "1.759,01" (by decide) (by decide) (by decide)).1 (by decide),
   normalize_price_locale_rule.2.1 "50,5" (by decide) (by decide) (by decide)⟩

/-! ### C1 — failure behaviour of the orchestrator -/

/-- C1 counterexample: a transport/timeout exception raised by the
model-service call propagates out of `extract_data_via_ai` unchanged in
both variants — the call sits outside every `try` block, so it is NOT
treated like a formatting failure and no record is returned. -/
theorem extract_transport_failure_cex :
    TestApp.extract_data_via_ai (.error "request timed out") = .error "request timed out" ∧
    SrcApp.extract_data_via_ai (.error "request timed out") = .error "request timed out" ∧
    (TestApp.extract_data_via_ai (.error "request timed out")).isOk = false :=
  ⟨rfl, rfl, rfl⟩

/-- Stages A/B/C always produce `Except.ok`, whatever the validation and
repair outcomes are. -/
theorem stage_branches_isOk (dflt : Json) (v : Except String ProcurementData)
    (b : Except Unit Json) :
    (match v with
     | Except.ok r => (Except.ok r.model_dump : Except String Json)
     | Except.error _ =>
       match b with
       | Except.ok j' => Except.ok j'
       | Except.error _ => Except.ok dflt).isOk = true := by
  rcases v with e | r
  · rcases b with u | j' <;> rfl
  · rfl

/-- The staged recovery after a delivered response always yields some
`Except.ok`, whichever Stage-B repair and Stage-C default are plugged
in. -/
theorem extract_stages_isOk (stb : Json → Except Unit Json) (dflt : Json) :
    ∀ o : Option Json,
    (match o with
     | none => (Except.ok dflt : Except String Json)
     | some j =>
       match ProcurementData.model_validate j with
       | Except.ok r => Except.ok r.model_dump
       | Except.error _ =>
         match stb j with
         | Except.ok j' => Except.ok j'
         | Except.error _ => Except.ok dflt).isOk = true
  | none => rfl
  | some j => stage_branches_isOk dflt (ProcurementData.model_validate j) (stb j)

/-- C1 amended: for every DELIVERED model response the staged recovery
always returns a record (Stages A/B/C never raise), but an exception from
the model-service call itself propagates to the caller. -/
theorem extract_never_raises_on_response :
    (∀ content : String,
      (TestApp.extract_data_via_ai (.ok content)).isOk = true ∧
      (SrcApp.extract_data_via_ai (.ok content)).isOk = true) ∧
    (∀ e : String,
      TestApp.extract_data_via_ai (.error e) = .error e ∧
      SrcApp.extract_data_via_ai (.error e) = .error e) := by
  refine ⟨fun content => ⟨?_, ?_⟩, fun e => ⟨rfl, rfl⟩⟩
  · exact extract_stages_isOk TestApp.stageB TestApp.stageCDefault
      (parseJson (cleanContent content))
  · exact extract_stages_isOk SrcApp.stageB SrcApp.stageCDefault
      (parseJson (cleanContent content))

/-! ### C4 — the Stage-C default on total failure -/

/-- C4 counterexample: on total failure the src variant's fixed record is
not the full default the claim describes — it carries no
`extracted_description_text` key at all (so no "empty description") and
its sentinel title is `"Error"`. -/
theorem src_stageC_missing_description_cex :
    SrcApp.extract_data_via_ai (.ok "odd garbage") = .ok SrcApp.stageCDefault ∧
    okObjField (SrcApp.extract_data_via_ai (.ok "odd garbage"))
      "extracted_description_text" = none ∧
    okObjField (SrcApp.extract_data_via_ai (.ok "odd garbage")) "title" = some (.str "Error") :=
  ⟨rfl, rfl, rfl⟩

/-- C4 amended: on total failure (the cleaned response is not parseable
JSON, so Stage A and Stage B both fail) each variant returns exactly its
own fixed Stage-C record: the test variant the full default of the claim
(title "Extraction Error", vendor "Unknown", vat_id "N/A", zero cost,
department "Operations", empty order lines, empty description), the src
variant a reduced five-key record (requestor, title "Error", vendor
"Unknown", zero cost, empty order lines) with no description, vat_id or
department keys. -/
theorem extract_total_failure_returns_default :
    ∀ content : String, parseJson (cleanContent content) = none →
      TestApp.extract_data_via_ai (.ok content) = .ok TestApp.stageCDefault ∧
      SrcApp.extract_data_via_ai (.ok content) = .ok SrcApp.stageCDefault := by
  intro content h
  constructor
  · simp [TestApp.extract_data_via_ai, h]
  · simp [SrcApp.extract_data_via_ai, h]

/-- Witness for C4 at the unparseable response `"odd garbage"`. -/
theorem extract_total_failure_returns_default_witness :
    TestApp.extract_data_via_ai (.ok "odd garbage") = .ok TestApp.stageCDefault ∧
    SrcApp.extract_data_via_ai (.ok "odd garbage") = .ok SrcApp.stageCDefault :=
  extract_total_failure_returns_default "odd garbage" rfl

/-! ### C3 — commodity_group versus strict validation -/

/-- A schema-valid candidate whose `commodity_group` is far outside the
50-string vocabulary. -/
def offVocabCandidate : Json :=
  .obj [("title", .str "New Laptops"), ("vendor_name", .str "Apple Store"),
        ("vat_id", .str "Unknown"), ("total_cost", .num (mkRat 5000 1)),
        ("extracted_description_text", .str "5x MacBook Laptops"),
        ("order_lines", .arr []), ("commodity_group", .str "Bananas")]

/-- C3 counterexample: `"Bananas"` is not in the 50-item vocabulary, yet
Stage A strict validation ACCEPTS the candidate — `ProcurementData`
declares no `commodity_group` field, so the value is never checked. -/
theorem commodity_group_unchecked_cex :
    ¬ ("Bananas" ∈ COMMODITY_GROUPS) ∧
    (ProcurementData.model_validate offVocabCandidate).isOk = true :=
  ⟨by decide, rfl⟩

/-- C3 amended: strict validation never consults `commodity_group` at all —
adding any `commodity_group` binding (vocabulary or not) leaves the
validation outcome unchanged; the vocabulary constrains only the prompt
and the UI dropdown. -/
theorem commodity_group_ignored_by_validation :
    ∀ (v : Json) (fs : List (String × Json)),
      ProcurementData.model_validate (.obj (("commodity_group", v) :: fs)) =
        ProcurementData.model_validate (.obj fs) := by
  intro v fs
  show validateFields (("commodity_group", v) :: fs) = validateFields fs
  unfold validateFields
  rw [optStr_cons_ne "commodity_group" v fs "requestor_name" _ (by decide),
    reqStr_cons_ne "commodity_group" v fs "title" (by decide),
    reqStr_cons_ne "commodity_group" v fs "vendor_name" (by decide),
    reqStr_cons_ne "commodity_group" v fs "vat_id" (by decide),
    reqFloat_cons_ne "commodity_group" v fs "total_cost" (by decide),
    optStr_cons_ne "commodity_group" v fs "department" _ (by decide),
    reqStr_cons_ne "commodity_group" v fs "extracted_description_text" (by decide),
    pyLookup_cons_ne "commodity_group" v fs "order_lines" (by decide)]

/-! ### C10 — the dumped record carries exactly the eight declared fields -/

/-- C10: every record produced by the successful validation path dumps to
exactly the eight declared fields in declaration order and never contains
a `commodity_group` key — any model-supplied `commodity_group` is
silently dropped. -/
theorem model_dump_exact_fields :
    ∀ (j : Json) (r : ProcurementData), ProcurementData.model_validate j = .ok r →
      dumpKeys r.model_dump =
        ["requestor_name", "title", "vendor_name", "vat_id", "total_cost",
         "department", "extracted_description_text", "order_lines"] ∧
      objField r.model_dump "commodity_group" = none := by
  intro j r _
  exact ⟨rfl, rfl⟩

/-- Witness for C10: a response carrying `commodity_group: "Hardware"`
validates, and the dumped record has the eight fields and no
`commodity_group`. -/
theorem model_dump_exact_fields_witness :
    dumpKeys (ProcurementData.model_dump
        ⟨"Vladimir Keil", "T", "V", "X", mkRat 5 1, "Operations", "D", []⟩) =
      ["requestor_name", "title", "vendor_name", "vat_id", "total_cost",
       "department", "extracted_description_text", "order_lines"] ∧
    objField (ProcurementData.model_dump
        ⟨"Vladimir Keil", "T", "V", "X", mkRat 5 1, "Operations", "D", []⟩)
      "commodity_group" = none :=
  model_dump_exact_fields
    (.obj [("title", .str "T"), ("vendor_name", .str "V"), ("vat_id", .str "X"),
           ("total_cost", .num (mkRat 5 1)), ("extracted_description_text", .str "D"),
           ("order_lines", .arr []), ("commodity_group", .str "Hardware")])
    ⟨"Vladimir Keil", "T", "V", "X", mkRat 5 1, "Operations", "D", []⟩ rfl

/-! ### C9 — unreadable documents never reach the model -/

theorem joinPages_blank : ∀ l : List (Option String),
    l.all (fun p => p.getD "" == "") = true → joinPages l = []
  | [], _ => rfl
  | p :: t, h => by
    rw [List.all_cons, Bool.and_eq_true] at h
    obtain ⟨h1, h2⟩ := h
    cases p with
    | none => simpa [joinPages] using joinPages_blank t h2
    | some s =>
      have hs : s = "" := by simpa using h1
      subst hs
      simpa [joinPages] using joinPages_blank t h2

/-- C9: when the document parser fails structurally, or none of the (first
three) pages yields any text, `extract_text_from_pdf` returns the empty
string rather than raising; the upload handler then never invokes the
model (invocation count 0) and returns its pre-existing defaults
unmodified. -/
theorem pdf_failure_skips_model :
    ∀ (pages : Except String (List (Option String))) (modelResult : Except String String),
      ((∃ e, pages = .error e) ∨
        ∃ ps, pages = .ok ps ∧ (ps.take 3).all (fun p => p.getD "" == "") = true) →
      extract_text_from_pdf pages = "" ∧
      SrcApp.new_request_upload pages modelResult = (.ok SrcApp.default_data, 0) := by
  intro pages mr h
  have he : extract_text_from_pdf pages = "" := by
    rcases h with ⟨e, rfl⟩ | ⟨ps, rfl, hall⟩
    · rfl
    · show String.mk (pyStripL (joinPages (ps.take 3))) = ""
      rw [joinPages_blank _ hall]
      rfl
  refine ⟨he, ?_⟩
  simp [SrcApp.new_request_upload, he]

/-- Witness for C9 at a structurally corrupt byte stream. -/
theorem pdf_failure_skips_model_witness :
    extract_text_from_pdf (.error "corrupt stream") = "" ∧
    SrcApp.new_request_upload (.error "corrupt stream") (.ok "response") =
      (.ok SrcApp.default_data, 0) :=
  pdf_failure_skips_model _ _ (Or.inl ⟨"corrupt stream", rfl⟩)

/-! ### C2 — the Stage-B key-renaming heuristics -/

/-- C2 counterexample: a line carrying both `description` and `item` has
its `description` value OVERWRITTEN by the `item` value — in the repair
function itself and through the whole orchestrator (`"Widget"` is lost,
replaced by `"Gadget"`). -/
theorem stageB_rename_overwrite_cex :
    TestApp.fixLineObj [("description", Json.str "Widget"), ("item", Json.str "Gadget")] =
      [("description", Json.str "Gadget")] ∧
    TestApp.extract_data_via_ai
        (.ok "\x7b\"title\": 1, \"order_lines\": [\x7b\"description\": \"Widget\", \"item\": \"Gadget\"\x7d]\x7d") =
      .ok (.obj [("title", .num (mkRat 1 1)),
        ("order_lines", .arr [.obj [("description", .str "Gadget")]])]) :=
  ⟨rfl, rfl⟩

/-- C2 amended: the top-level `items`→`order_lines` rename is guarded and
never overwrites (it fires only when no `order_lines` key exists); the four
per-line renames fire whenever the old key is present, move its value to
the new key OVERWRITING any existing correctly-named key, and remove the
old key; a missing old key leaves the line untouched. -/
theorem stageB_rename_semantics :
    (∀ (d : List (String × Json)) (v : Json), pyLookup d "item" = some v →
      pyLookup (TestApp.fixLineObj d) "description" = some v ∧
      pyLookup (TestApp.fixLineObj d) "item" = none) ∧
    (∀ d : List (String × Json), pyLookup d "item" = none →
      pyLookup (TestApp.fixLineObj d) "description" = pyLookup d "description") ∧
    (∀ (d : List (String × Json)) (v : Json), pyLookup d "price" = some v →
      pyLookup (TestApp.fixLineObj d) "unit_price" = some v ∧
      pyLookup (TestApp.fixLineObj d) "price" = none) ∧
    (∀ (d : List (String × Json)) (v : Json), pyLookup d "quantity" = some v →
      pyLookup (TestApp.fixLineObj d) "amount" = some v ∧
      pyLookup (TestApp.fixLineObj d) "quantity" = none) ∧
    (∀ (d : List (String × Json)) (v : Json), pyLookup d "total" = some v →
      pyLookup (TestApp.fixLineObj d) "total_price" = some v ∧
      pyLookup (TestApp.fixLineObj d) "total" = none) ∧
    (∀ (d : List (String × Json)) (v : Json),
      pyLookup d "items" = some v → pyLookup d "order_lines" = none →
      pyLookup (TestApp.topFix d) "order_lines" = some v ∧
      pyLookup (TestApp.topFix d) "items" = none) ∧
    (∀ (d : List (String × Json)) (w : Json),
      pyLookup d "order_lines" = some w → TestApp.topFix d = d) := by
  refine ⟨fun d v h => ⟨?_, ?_⟩, fun d h => ?_, fun d v h => ⟨?_, ?_⟩,
          fun d v h => ⟨?_, ?_⟩, fun d v h => ⟨?_, ?_⟩, fun d v h1 h2 => ⟨?_, ?_⟩,
          fun d w h => ?_⟩
  · unfold TestApp.fixLineObj
    rw [renameKey_other _ "total" "total_price" "description" (by decide) (by decide),
        renameKey_other _ "quantity" "amount" "description" (by decide) (by decide),
        renameKey_other _ "price" "unit_price" "description" (by decide) (by decide)]
    exact renameKey_tgt d "item" "description" v h
  · unfold TestApp.fixLineObj
    rw [renameKey_other _ "total" "total_price" "item" (by decide) (by decide),
        renameKey_other _ "quantity" "amount" "item" (by decide) (by decide),
        renameKey_other _ "price" "unit_price" "item" (by decide) (by decide)]
    exact renameKey_src d "item" "description" v (by decide) h
  · unfold TestApp.fixLineObj
    rw [renameKey_other _ "total" "total_price" "description" (by decide) (by decide),
        renameKey_other _ "quantity" "amount" "description" (by decide) (by decide),
        renameKey_other _ "price" "unit_price" "description" (by decide) (by decide),
        renameKey_absent d "item" "description" h]
  · unfold TestApp.fixLineObj
    rw [renameKey_other _ "total" "total_price" "unit_price" (by decide) (by decide),
        renameKey_other _ "quantity" "amount" "unit_price" (by decide) (by decide)]
    exact renameKey_tgt _ "price" "unit_price" v
      (by rw [renameKey_other _ "item" "description" "price" (by decide) (by decide)]; exact h)
  · unfold TestApp.fixLineObj
    rw [renameKey_other _ "total" "total_price" "price" (by decide) (by decide),
        renameKey_other _ "quantity" "amount" "price" (by decide) (by decide)]
    exact renameKey_src _ "price" "unit_price" v (by decide)
      (by rw [renameKey_other _ "item" "description" "price" (by decide) (by decide)]; exact h)
  · unfold TestApp.fixLineObj
    rw [renameKey_other _ "total" "total_price" "amount" (by decide) (by decide)]
    exact renameKey_tgt _ "quantity" "amount" v
      (by rw [renameKey_other _ "price" "unit_price" "quantity" (by decide) (by decide),
              renameKey_other _ "item" "description" "quantity" (by decide) (by decide)]
          exact h)
  · unfold TestApp.fixLineObj
    rw [renameKey_other _ "total" "total_price" "quantity" (by decide) (by decide)]
    exact renameKey_src _ "quantity" "amount" v (by decide)
      (by rw [renameKey_other _ "price" "unit_price" "quantity" (by decide) (by decide),
              renameKey_other _ "item" "description" "quantity" (by decide) (by decide)]
          exact h)
  · unfold TestApp.fixLineObj
    exact renameKey_tgt _ "total" "total_price" v
      (by rw [renameKey_other _ "quantity" "amount" "total" (by decide) (by decide),
              renameKey_other _ "price" "unit_price" "total" (by decide) (by decide),
              renameKey_other _ "item" "description" "total" (by decide) (by decide)]
          exact h)
  · unfold TestApp.fixLineObj
    exact renameKey_src _ "total" "total_price" v (by decide)
      (by rw [renameKey_other _ "quantity" "amount" "total" (by decide) (by decide),
              renameKey_other _ "price" "unit_price" "total" (by decide) (by decide),
              renameKey_other _ "item" "description" "total" (by decide) (by decide)]
          exact h)
  · unfold TestApp.topFix
    rw [show (pyHasKey d "items" && !pyHasKey d "order_lines") = true by
      unfold pyHasKey; rw [h1, h2]; rfl]
    simp only [if_true]
    exact renameKey_tgt d "items" "order_lines" v h1
  · unfold TestApp.topFix
    rw [show (pyHasKey d "items" && !pyHasKey d "order_lines") = true by
      unfold pyHasKey; rw [h1, h2]; rfl]
    simp only [if_true]
    exact renameKey_src d "items" "order_lines" v (by decide) h1
  · unfold TestApp.topFix
    rw [show (pyHasKey d "items" && !pyHasKey d "order_lines") = false by
      unfold pyHasKey; rw [h]; simp]
    rfl

/-- Witness for C2's amended rename semantics at concrete lines. -/
theorem stageB_rename_semantics_witness :
    pyLookup (TestApp.fixLineObj [("description", Json.str "A"), ("item", Json.str "B")])
      "description" = some (Json.str "B") ∧
    pyLookup (TestApp.fixLineObj [("description", Json.str "A"), ("item", Json.str "B")])
      "item" = none ∧
    pyLookup (TestApp.topFix [("items", Json.arr [])]) "order_lines" = some (Json.arr []) ∧
    TestApp.topFix [("order_lines", Json.arr []), ("items", Json.null)] =
      [("order_lines", Json.arr []), ("items", Json.null)] :=
  ⟨(stageB_rename_semantics.1 [("description", Json.str "A"), ("item", Json.str "B")]
      (Json.str "B") rfl).1,
   (stageB_rename_semantics.1 [("description", Json.str "A"), ("item", Json.str "B")]
      (Json.str "B") rfl).2,
   (stageB_rename_semantics.2.2.2.2.2.1 [("items", Json.arr [])] (Json.arr []) rfl rfl).1,
   stageB_rename_semantics.2.2.2.2.2.2 [("order_lines", Json.arr []), ("items", Json.null)]
     (Json.arr []) rfl⟩

/-! ### C7 — schema validation round-trips well-shaped objects -/

theorem optStr_shape (fs : List (String × Json)) (k d : String)
    (h : shapeOptStr fs k = true) : optStr fs k d = .ok (getStrD fs k d) := by
  unfold shapeOptStr at h
  unfold optStr getStrD
  rcases hl : pyLookup fs k with _ | j
  · rfl
  · rw [hl] at h
    cases j <;> first | rfl | exact Bool.noConfusion h

theorem reqStr_shape (fs : List (String × Json)) (k : String)
    (h : shapeStr fs k = true) : reqStr fs k = .ok (getStrD fs k "") := by
  unfold shapeStr at h
  unfold reqStr getStrD
  rcases hl : pyLookup fs k with _ | j
  · rw [hl] at h
    exact Bool.noConfusion h
  · rw [hl] at h
    cases j <;> first | rfl | exact Bool.noConfusion h

theorem reqFloat_shape (fs : List (String × Json)) (k : String)
    (h : shapeNum fs k = true) : reqFloat fs k = .ok (getNumD fs k) := by
  unfold shapeNum at h
  unfold reqFloat getNumD
  rcases hl : pyLookup fs k with _ | j
  · rw [hl] at h
    exact Bool.noConfusion h
  · rw [hl] at h
    have h' : (jsonToFloat j).isSome = true := h
    show (match jsonToFloat j with
          | some q => (Except.ok q : Except String ℚ)
          | none => Except.error (k ++ ": number expected")) =
      Except.ok ((jsonToFloat j).getD 0)
    rcases hf : jsonToFloat j with _ | q
    · rw [hf] at h'
      exact Bool.noConfusion h'
    · rfl

theorem validateOrderLine_shape : ∀ l : Json, specWellShapedLine l = true →
    ∃ r, validateOrderLine l = .ok r ∧ dumpOrderLine r = specCanonLine l
  | .obj lf, h => by
    unfold specWellShapedLine at h
    rw [Bool.and_eq_true, Bool.and_eq_true, Bool.and_eq_true, Bool.and_eq_true] at h
    obtain ⟨⟨⟨⟨h1, h2⟩, h3⟩, h4⟩, h5⟩ := h
    refine ⟨⟨getStrD lf "description" "", getNumD lf "unit_price", getNumD lf "amount",
             getStrD lf "unit" "", getNumD lf "total_price"⟩, ?_, rfl⟩
    simp only [validateOrderLine]
    rw [reqStr_shape lf "description" h1, reqFloat_shape lf "unit_price" h2,
        reqFloat_shape lf "amount" h3, reqStr_shape lf "unit" h4,
        reqFloat_shape lf "total_price" h5]
  | .null, h => nomatch h
  | .bool b, h => nomatch h
  | .num q, h => nomatch h
  | .str s, h => nomatch h
  | .arr xs, h => nomatch h

theorem validateLines_shape : ∀ ls : List Json, ls.all specWellShapedLine = true →
    ∃ rs, validateLines ls = .ok rs ∧ rs.map dumpOrderLine = ls.map specCanonLine
  | [], _ => ⟨[], rfl, rfl⟩
  | l :: t, h => by
    rw [List.all_cons, Bool.and_eq_true] at h
    obtain ⟨h1, h2⟩ := h
    obtain ⟨r, hr, hdr⟩ := validateOrderLine_shape l h1
    obtain ⟨rs, hrs, hdrs⟩ := validateLines_shape t h2
    refine ⟨r :: rs, ?_, ?_⟩
    · unfold validateLines
      rw [hr, hrs]
    · simp [hdr, hdrs]

theorem validate_shape_roundtrip : ∀ j : Json, specWellShaped j = true →
    Except.map ProcurementData.model_dump (ProcurementData.model_validate j) =
      .ok (specCanonRecord j)
  | .obj fs, h => by
    unfold specWellShaped at h
    rw [Bool.and_eq_true, Bool.and_eq_true, Bool.and_eq_true, Bool.and_eq_true,
        Bool.and_eq_true, Bool.and_eq_true, Bool.and_eq_true] at h
    obtain ⟨⟨⟨⟨⟨⟨⟨h1, h2⟩, h3⟩, h4⟩, h5⟩, h6⟩, h7⟩, h8⟩ := h
    show Except.map ProcurementData.model_dump (validateFields fs) =
      .ok (specCanonRecord (.obj fs))
    rcases hl : pyLookup fs "order_lines" with _ | jv
    · rw [hl] at h8
      exact Bool.noConfusion h8
    · cases jv with
      | arr ls =>
        rw [hl] at h8
        have h8' : ls.all specWellShapedLine = true := h8
        obtain ⟨rs, hrs, hdrs⟩ := validateLines_shape ls h8'
        unfold validateFields
        rw [optStr_shape fs "requestor_name" "Vladimir Keil" h1,
            reqStr_shape fs "title" h2, reqStr_shape fs "vendor_name" h3,
            reqStr_shape fs "vat_id" h4, reqFloat_shape fs "total_cost" h5,
            optStr_shape fs "department" "Operations" h6,
            reqStr_shape fs "extracted_description_text" h7, hl]
        simp only [Except.map, hrs, specCanonRecord, ProcurementData.model_dump, getArrD,
          hl, hdrs]
      | null => rw [hl] at h8; exact Bool.noConfusion h8
      | bool b => rw [hl] at h8; exact Bool.noConfusion h8
      | num q => rw [hl] at h8; exact Bool.noConfusion h8
      | str s => rw [hl] at h8; exact Bool.noConfusion h8
      | obj o => rw [hl] at h8; exact Bool.noConfusion h8
  | .null, h => nomatch h
  | .bool b, h => nomatch h
  | .num q, h => nomatch h
  | .str s, h => nomatch h
  | .arr xs, h => nomatch h

theorem reqStr_ok_isSome (fs : List (String × Json)) (k s : String)
    (h : reqStr fs k = .ok s) : (pyLookup fs k).isSome = true := by
  unfold reqStr at h
  rcases hl : pyLookup fs k with _ | j
  · rw [hl] at h
    exact Except.noConfusion h
  · rfl

theorem reqFloat_ok_isSome (fs : List (String × Json)) (k : String) (q : ℚ)
    (h : reqFloat fs k = .ok q) : (pyLookup fs k).isSome = true := by
  unfold reqFloat at h
  rcases hl : pyLookup fs k with _ | j
  · rw [hl] at h
    exact Except.noConfusion h
  · rfl

theorem validateOrderLine_ok_keys (lf : List (String × Json))
    (h : (validateOrderLine (.obj lf)).isOk = true) :
    ∀ k ∈ (["description", "unit_price", "amount", "unit", "total_price"] : List String),
      (pyLookup lf k).isSome = true := by
  simp only [validateOrderLine] at h
  rcases h1 : reqStr lf "description" with e | d
  · rw [h1] at h; exact Bool.noConfusion h
  · rw [h1] at h
    rcases h2 : reqFloat lf "unit_price" with e | up
    · rw [h2] at h; exact Bool.noConfusion h
    · rw [h2] at h
      rcases h3 : reqFloat lf "amount" with e | am
      · rw [h3] at h; exact Bool.noConfusion h
      · rw [h3] at h
        rcases h4 : reqStr lf "unit" with e | u
        · rw [h4] at h; exact Bool.noConfusion h
        · rw [h4] at h
          rcases h5 : reqFloat lf "total_price" with e | tp
          · rw [h5] at h; exact Bool.noConfusion h
          · intro k hk
            fin_cases hk
            · exact reqStr_ok_isSome _ _ _ h1
            · exact reqFloat_ok_isSome _ _ _ h2
            · exact reqFloat_ok_isSome _ _ _ h3
            · exact reqStr_ok_isSome _ _ _ h4
            · exact reqFloat_ok_isSome _ _ _ h5

theorem validateLines_ok_mem : ∀ ls : List Json,
    (validateLines ls).isOk = true → ∀ l ∈ ls, (validateOrderLine l).isOk = true
  | [], _, l, hl => by simp at hl
  | x :: t, h, l, hl => by
    unfold validateLines at h
    rcases h1 : validateOrderLine x with e | r
    · rw [h1] at h; exact Bool.noConfusion h
    · rw [h1] at h
      rcases h2 : validateLines t with e | rs
      · rw [h2] at h; exact Bool.noConfusion h
      · rcases List.mem_cons.mp hl with rfl | hmem
        · rw [h1]; rfl
        · exact validateLines_ok_mem t (by rw [h2]; rfl) l hmem

theorem validateFields_ok_lines (fs : List (String × Json)) (ls : List Json)
    (hl : pyLookup fs "order_lines" = some (.arr ls))
    (h : (validateFields fs).isOk = true) : (validateLines ls).isOk = true := by
  unfold validateFields at h
  rcases h1 : optStr fs "requestor_name" "Vladimir Keil" with e | rn
  · rw [h1] at h; exact Bool.noConfusion h
  · rw [h1] at h
    rcases h2 : reqStr fs "title" with e | ti
    · rw [h2] at h; exact Bool.noConfusion h
    · rw [h2] at h
      rcases h3 : reqStr fs "vendor_name" with e | vn
      · rw [h3] at h; exact Bool.noConfusion h
      · rw [h3] at h
        rcases h4 : reqStr fs "vat_id" with e | vi
        · rw [h4] at h; exact Bool.noConfusion h
        · rw [h4] at h
          rcases h5 : reqFloat fs "total_cost" with e | tc
          · rw [h5] at h; exact Bool.noConfusion h
          · rw [h5] at h
            rcases h6 : optStr fs "department" "Operations" with e | dp
            · rw [h6] at h; exact Bool.noConfusion h
            · rw [h6] at h
              rcases h7 : reqStr fs "extracted_description_text" with e | ed
              · rw [h7] at h; exact Bool.noConfusion h
              · rw [h7] at h
                rw [hl] at h
                have h' : (match validateLines ls with
                    | Except.error e => (Except.error e : Except String ProcurementData)
                    | Except.ok lines =>
                      Except.ok ⟨rn, ti, vn, vi, tc, dp, ed, lines⟩).isOk = true := h
                rcases h8 : validateLines ls with e | lines
                · rw [h8] at h'
                  exact h'
                · rfl

/-- C7: every JSON object satisfying the ProcurementData shape validates
successfully and the dumped record carries every field value over
unchanged — numeric fields coerced to float, the two declared defaults
filled in when absent — and a single missing required sub-field in any
order line fails the whole validation. -/
theorem procurement_validation_roundtrip :
    (∀ j : Json, specWellShaped j = true →
      Except.map ProcurementData.model_dump (ProcurementData.model_validate j) =
        .ok (specCanonRecord j)) ∧
    (∀ (fs : List (String × Json)) (lines : List Json) (lf : List (String × Json))
        (k : String),
      pyLookup fs "order_lines" = some (.arr lines) →
      Json.obj lf ∈ lines →
      k ∈ (["description", "unit_price", "amount", "unit", "total_price"] : List String) →
      pyLookup lf k = none →
      (ProcurementData.model_validate (.obj fs)).isOk = false) := by
  refine ⟨validate_shape_roundtrip, fun fs lines lf k hol hmem hk hnone => ?_⟩
  cases hOk : (ProcurementData.model_validate (.obj fs)).isOk
  · rfl
  · exfalso
    have hlines := validateFields_ok_lines fs lines hol hOk
    have hline := validateLines_ok_mem lines hlines _ hmem
    have hsome := validateOrderLine_ok_keys lf hline k hk
    rw [hnone] at hsome
    simp at hsome

/-- A shape-valid candidate exercising numeric-string coercion. -/
def wellShapedExample : Json :=
  .obj [("requestor_name", .str "Alice"), ("title", .str "Laptops"),
        ("vendor_name", .str "V"), ("vat_id", .str "X"),
        ("total_cost", .str "1500.00"), ("extracted_description_text", .str "D"),
        ("order_lines", .arr [.obj [("description", .str "W"),
          ("unit_price", .num (mkRat 3 2)), ("amount", .str "2"),
          ("unit", .str "pcs"), ("total_price", .num (mkRat 3 1))]])]

/-- Witness for C7: the round trip at a concrete well-shaped candidate
(with a numeric-string total_cost), and a concrete one-line candidate
whose line lacks `unit_price` failing validation. -/
theorem procurement_validation_roundtrip_witness :
    Except.map ProcurementData.model_dump (ProcurementData.model_validate wellShapedExample) =
      .ok (specCanonRecord wellShapedExample) ∧
    (ProcurementData.model_validate
      (.obj [("title", Json.str "T"), ("vendor_name", Json.str "V"),
             ("vat_id", Json.str "X"), ("total_cost", Json.num (mkRat 1 1)),
             ("extracted_description_text", Json.str "D"),
             ("order_lines", Json.arr [Json.obj [("description", Json.str "W")]])])).isOk
      = false :=
  ⟨procurement_validation_roundtrip.1 wellShapedExample rfl,
   procurement_validation_roundtrip.2
     [("title", Json.str "T"), ("vendor_name", Json.str "V"),
      ("vat_id", Json.str "X"), ("total_cost", Json.num (mkRat 1 1)),
      ("extracted_description_text", Json.str "D"),
      ("order_lines", Json.arr [Json.obj [("description", Json.str "W")]])]
     [Json.obj [("description", Json.str "W")]]
     [("description", Json.str "W")] "unit_price" rfl (List.Mem.head _) (by simp) rfl⟩

/-! ### C8 — fence stripping: list-scanning lemmas -/

theorem strData_append (a b : String) : (a ++ b).data = a.data ++ b.data := by
  cases a
  cases b
  rfl

theorem startsL_self_append : ∀ pat t : List Char, startsL pat (pat ++ t) = true
  | [], _ => rfl
  | p :: ps, t => by simp [startsL, startsL_self_append ps t]

theorem startsL_cons_false (p0 : Char) (ps : List Char) (c : Char) (t : List Char)
    (h : (p0 == c) = false) : startsL (p0 :: ps) (c :: t) = false := by
  simp [startsL, h]

theorem containsL_cons (pat : List Char) (c : Char) (t : List Char) :
    containsL pat (c :: t) = (startsL pat (c :: t) || containsL pat t) := rfl

theorem containsL_self_append (p0 : Char) (ps t : List Char) :
    containsL (p0 :: ps) ((p0 :: ps) ++ t) = true := by
  have h := startsL_self_append (p0 :: ps) t
  rw [List.cons_append] at h ⊢
  rw [containsL_cons, h]
  rfl

theorem containsL_cons_of_ne (p0 : Char) (ps : List Char) (c : Char) (t : List Char)
    (h : (p0 == c) = false) : containsL (p0 :: ps) (c :: t) = containsL (p0 :: ps) t := by
  rw [containsL_cons, startsL_cons_false p0 ps c t h]
  rfl

theorem startsL_prefix_concat : ∀ (pat l : List Char) (c : Char),
    startsL pat (l ++ [c]) = true → startsL pat l = true ∨ pat = l ++ [c]
  | [], _, _, _ => Or.inl rfl
  | p :: ps, [], c, h => by
    simp only [List.nil_append, startsL, Bool.and_eq_true] at h
    obtain ⟨hpc, hps⟩ := h
    cases ps with
    | nil =>
      refine Or.inr ?_
      rw [beq_iff_eq] at hpc
      rw [hpc]
      rfl
    | cons a as => exact absurd hps (by simp [startsL])
  | p :: ps, d :: l', c, h => by
    simp only [List.cons_append, startsL, Bool.and_eq_true] at h
    obtain ⟨hpd, hrest⟩ := h
    rcases startsL_prefix_concat ps l' c hrest with hl | he
    · exact Or.inl (by simp [startsL, hpd, hl])
    · refine Or.inr ?_
      rw [beq_iff_eq] at hpd
      rw [hpd, he, List.cons_append]

theorem startsL_ne_nil : ∀ (p : Char) (ps : List Char), startsL (p :: ps) [] = false
  | _, _ => rfl

theorem containsL_concat_of_ne : ∀ (p0 : Char) (ps : List Char) (l : List Char) (c : Char),
    (p0 :: ps).getLast? ≠ some c → containsL (p0 :: ps) l = false →
    containsL (p0 :: ps) (l ++ [c]) = false
  | p0, ps, [], c, hlast, _ => by
    rw [List.nil_append, containsL_cons]
    have h0 : containsL (p0 :: ps) [] = false := rfl
    rw [h0, Bool.or_false]
    cases hS : startsL (p0 :: ps) [c] with
    | false => rfl
    | true =>
      exfalso
      rcases startsL_prefix_concat (p0 :: ps) [] c (by simpa using hS) with h1 | h2
      · exact absurd h1 (by simp [startsL_ne_nil])
      · rw [h2] at hlast
        simp at hlast
  | p0, ps, d :: l', c, hlast, h => by
    rw [containsL_cons] at h
    rw [show (d :: l') ++ [c] = d :: (l' ++ [c]) from rfl, containsL_cons]
    rw [Bool.or_eq_false_iff] at h
    obtain ⟨hs, hc⟩ := h
    have ih := containsL_concat_of_ne p0 ps l' c hlast hc
    rw [ih, Bool.or_false]
    cases hS : startsL (p0 :: ps) (d :: l' ++ [c]) with
    | false => exact hS
    | true =>
      exfalso
      rcases startsL_prefix_concat (p0 :: ps) (d :: l') c (by simpa using hS) with h1 | h2
      · rw [h1] at hs
        exact Bool.noConfusion hs
      · rw [h2] at hlast
        exact hlast (List.getLast?_concat _)

theorem replFuel_nomatch : ∀ (p0 : Char) (ps rep s : List Char) (fuel : Nat),
    containsL (p0 :: ps) s = false → s.length ≤ fuel →
    replFuel (p0 :: ps) rep fuel s = s
  | _, _, _, [], fuel, _, _ => by cases fuel <;> rfl
  | p0, ps, rep, c :: t, fuel, h, hf => by
    rcases fuel with _ | f
    · simp at hf
    · rw [containsL_cons, Bool.or_eq_false_iff] at h
      obtain ⟨hs, ht⟩ := h
      show replFuel (p0 :: ps) rep (f + 1) (c :: t) = c :: t
      simp only [replFuel, hs, Bool.false_eq_true, if_false]
      rw [replFuel_nomatch p0 ps rep t f ht (by simp only [List.length_cons] at hf; omega)]

theorem replFuel_head (p0 : Char) (ps rep t : List Char) (fuel : Nat) :
    replFuel (p0 :: ps) rep (fuel + 1) ((p0 :: ps) ++ t) =
      rep ++ replFuel (p0 :: ps) rep fuel t := by
  have hs : startsL (p0 :: ps) (p0 :: (ps ++ t)) = true := startsL_self_append (p0 :: ps) t
  show replFuel (p0 :: ps) rep (fuel + 1) (p0 :: (ps ++ t)) = _
  simp only [replFuel, hs, if_true]
  rw [List.drop_left]

theorem splitFuel_nil (pat : List Char) : ∀ (fuel : Nat) (acc : List Char),
    splitFuel pat fuel acc [] = [acc]
  | 0, acc => by simp [splitFuel]
  | _ + 1, _ => rfl

theorem splitFuel_head (p0 : Char) (ps t : List Char) (fuel : Nat) (acc : List Char) :
    splitFuel (p0 :: ps) (fuel + 1) acc ((p0 :: ps) ++ t) =
      acc :: splitFuel (p0 :: ps) fuel [] t := by
  have hs : startsL (p0 :: ps) (p0 :: (ps ++ t)) = true := startsL_self_append (p0 :: ps) t
  show splitFuel (p0 :: ps) (fuel + 1) acc (p0 :: (ps ++ t)) = _
  simp only [splitFuel, hs, if_true]
  rw [List.drop_left]

theorem splitFuel_skip (p0 : Char) (ps : List Char) (fuel : Nat) (acc : List Char)
    (c : Char) (t : List Char) (h : startsL (p0 :: ps) (c :: t) = false) :
    splitFuel (p0 :: ps) (fuel + 1) acc (c :: t) =
      splitFuel (p0 :: ps) fuel (acc ++ [c]) t := by
  simp only [splitFuel, h, Bool.false_eq_true, if_false]

theorem splitFuel_exact (p0 : Char) (ps : List Char) (fuel : Nat) (acc : List Char) :
    splitFuel (p0 :: ps) (fuel + 1) acc (p0 :: ps) = [acc, []] := by
  have h := splitFuel_head p0 ps [] fuel acc
  rw [List.append_nil] at h
  rw [h, splitFuel_nil]

theorem splitFuel_skip_fence (fuel : Nat) (acc : List Char) (c : Char) (t : List Char)
    (h : startsL fenceTok (c :: t) = false) :
    splitFuel fenceTok (fuel + 1) acc (c :: t) = splitFuel fenceTok fuel (acc ++ [c]) t :=
  splitFuel_skip bq [bq, bq] fuel acc c t h

theorem splitFuel_exact_fence (fuel : Nat) (acc : List Char) :
    splitFuel fenceTok (fuel + 1) acc fenceTok = [acc, []] :=
  splitFuel_exact bq [bq, bq] fuel acc

theorem splitFuel_head_fence (t : List Char) (fuel : Nat) (acc : List Char) :
    splitFuel fenceTok (fuel + 1) acc (fenceTok ++ t) = acc :: splitFuel fenceTok fuel [] t :=
  splitFuel_head bq [bq, bq] t fuel acc

theorem startsL_fence_long (c1 c2 c3 : Char) (r t : List Char) :
    startsL fenceTok (c1 :: c2 :: c3 :: (r ++ t)) = startsL fenceTok (c1 :: c2 :: c3 :: r) := by
  show startsL [bq, bq, bq] _ = startsL [bq, bq, bq] _
  simp [startsL]

theorem fence_span : ∀ x : List Char, startsL fenceTok (x ++ ['\n']) = false →
    startsL fenceTok ((x ++ ['\n']) ++ fenceTok) = false
  | [], _ => by decide
  | [c1], _ => by
    show startsL fenceTok (c1 :: '\n' :: fenceTok) = false
    have hn : (bq == '\n') = false := by decide
    simp [fenceTok, startsL, hn]
  | c1 :: c2 :: m, h => by
    cases m with
    | nil =>
      show startsL fenceTok (c1 :: c2 :: '\n' :: fenceTok) = false
      have hn : (bq == '\n') = false := by decide
      simp [fenceTok, startsL, hn]
    | cons d r =>
      show startsL fenceTok (c1 :: c2 :: d :: ((r ++ ['\n']) ++ fenceTok)) = false
      have h' : startsL fenceTok (c1 :: c2 :: d :: (r ++ ['\n'])) = false := by
        rw [show c1 :: c2 :: d :: (r ++ ['\n']) = (c1 :: c2 :: d :: r) ++ ['\n'] from by simp]
        exact h
      rw [show (r ++ ['\n']) ++ fenceTok = r ++ (['\n'] ++ fenceTok) from by simp]
      rw [startsL_fence_long c1 c2 d r (['\n'] ++ fenceTok)]
      rw [startsL_fence_long c1 c2 d r ['\n']] at h'
      exact h'

theorem splitFuel_until_fence : ∀ (x : List Char) (fuel : Nat) (acc : List Char),
    containsL fenceTok (x ++ ['\n']) = false →
    (x ++ ['\n']).length + 4 ≤ fuel →
    splitFuel fenceTok fuel acc ((x ++ ['\n']) ++ fenceTok) = [acc ++ (x ++ ['\n']), []]
  | [], fuel, acc, _, hf => by
    rcases fuel with _ | f
    · simp at hf
    · rcases f with _ | f'
      · simp at hf
      · show splitFuel fenceTok (f' + 1 + 1) acc (([] ++ ['\n']) ++ fenceTok) =
          [acc ++ ([] ++ ['\n']), []]
        simp only [List.nil_append]
        rw [show (['\n'] : List Char) ++ fenceTok = '\n' :: fenceTok from rfl]
        rw [splitFuel_skip_fence (f' + 1) acc '\n' fenceTok (by decide)]
        rw [splitFuel_exact_fence f' (acc ++ ['\n'])]
  | c :: x', fuel, acc, h, hf => by
    rcases fuel with _ | f
    · exfalso
      simp at hf
    · have hcons : ((c :: x') ++ ['\n']) = c :: (x' ++ ['\n']) := rfl
      rw [hcons, containsL_cons, Bool.or_eq_false_iff] at h
      obtain ⟨hs, hrest⟩ := h
      have hspan := fence_span (c :: x') (by rw [hcons]; exact hs)
      have hspan' : startsL fenceTok (c :: ((x' ++ ['\n']) ++ fenceTok)) = false := by
        rw [show c :: ((x' ++ ['\n']) ++ fenceTok) = ((c :: x') ++ ['\n']) ++ fenceTok
          from by simp]
        exact hspan
      show splitFuel fenceTok (f + 1) acc (((c :: x') ++ ['\n']) ++ fenceTok) =
        [acc ++ ((c :: x') ++ ['\n']), []]
      rw [show ((c :: x') ++ ['\n']) ++ fenceTok = c :: ((x' ++ ['\n']) ++ fenceTok)
        from by simp]
      rw [splitFuel_skip_fence f acc c _ hspan']
      rw [splitFuel_until_fence x' f (acc ++ [c]) hrest
        (by simp only [List.length_append, List.length_cons] at hf ⊢; omega)]
      simp

theorem pyStripL_eq_self (l : List Char) (h1 : l.dropWhile pyWs = l)
    (h2 : l.reverse.dropWhile pyWs = l.reverse) : pyStripL l = l := by
  unfold pyStripL
  rw [h1, h2, List.reverse_reverse]

theorem dropWhile_cons_false (c : Char) (t : List Char) (h : pyWs c = false) :
    (c :: t).dropWhile pyWs = c :: t := by
  simp [List.dropWhile_cons, h]

theorem head_not_ws_of_dropWhile (c : Char) (t : List Char)
    (h : (c :: t).dropWhile pyWs = c :: t) : pyWs c = false := by
  by_contra hc
  rw [Bool.not_eq_false] at hc
  rw [List.dropWhile_cons, if_pos hc] at h
  have hle : (List.dropWhile pyWs t).length ≤ t.length :=
    List.Sublist.length_le (List.dropWhile_sublist pyWs)
  rw [h] at hle
  simp [List.length_cons] at hle

theorem strip_newline_wrap (p : List Char) (hd1 : p.dropWhile pyWs = p)
    (hd2 : p.reverse.dropWhile pyWs = p.reverse) :
    pyStripL ('\n' :: (p ++ ['\n'])) = p := by
  unfold pyStripL
  rw [show List.dropWhile pyWs ('\n' :: (p ++ ['\n'])) = List.dropWhile pyWs (p ++ ['\n'])
    from rfl]
  cases p with
  | nil => rfl
  | cons c rest =>
    have hc : pyWs c = false := head_not_ws_of_dropWhile c rest hd1
    rw [show (c :: rest) ++ ['\n'] = c :: (rest ++ ['\n']) from rfl]
    rw [dropWhile_cons_false c (rest ++ ['\n']) hc]
    rw [show (c :: (rest ++ ['\n'])).reverse = '\n' :: (c :: rest).reverse from by simp]
    rw [show List.dropWhile pyWs ('\n' :: (c :: rest).reverse) =
        List.dropWhile pyWs ((c :: rest).reverse) from rfl]
    rw [hd2, List.reverse_reverse]

theorem strip_fencewrap (mid : List Char) :
    pyStripL ((fenceTok ++ mid) ++ fenceTok) = (fenceTok ++ mid) ++ fenceTok := by
  apply pyStripL_eq_self
  · rfl
  · rw [List.reverse_append, show fenceTok.reverse = fenceTok from rfl]
    rfl

theorem containsL_json_wrap (p : List Char) (hp : containsL jsonTok p = false) :
    containsL jsonTok ('\n' :: (p ++ ['\n'])) = false := by
  have h1 : containsL jsonTok ('\n' :: (p ++ ['\n'])) = containsL jsonTok (p ++ ['\n']) :=
    containsL_cons_of_ne 'j' ['s', 'o', 'n'] '\n' (p ++ ['\n']) (by decide)
  rw [h1]
  exact containsL_concat_of_ne 'j' ['s', 'o', 'n'] p '\n' (by decide) hp

theorem containsL_fence_mid (p : List Char) (hp : containsL fenceTok p = false) :
    containsL fenceTok ((jsonTok ++ ('\n' :: p)) ++ ['\n']) = false := by
  show containsL fenceTok ('j' :: 's' :: 'o' :: 'n' :: '\n' :: (p ++ ['\n'])) = false
  have e1 : ∀ (c : Char) (t : List Char), (bq == c) = false →
      containsL fenceTok (c :: t) = containsL fenceTok t := fun c t hc =>
    containsL_cons_of_ne bq [bq, bq] c t hc
  rw [e1 'j' _ (by decide), e1 's' _ (by decide), e1 'o' _ (by decide),
      e1 'n' _ (by decide), e1 '\n' _ (by decide)]
  exact containsL_concat_of_ne bq [bq, bq] p '\n' (by decide) hp

theorem replFuel_json_strip (t : List Char) (fuel : Nat)
    (h : containsL jsonTok t = false) (hf : t.length + 1 ≤ fuel) :
    replFuel jsonTok [] fuel (jsonTok ++ t) = t := by
  rcases fuel with _ | f
  · omega
  · have hh := replFuel_head 'j' ['s', 'o', 'n'] [] t f
    rw [show (replFuel jsonTok [] (f + 1) (jsonTok ++ t)) =
        replFuel ('j' :: ['s', 'o', 'n']) [] (f + 1) (('j' :: ['s', 'o', 'n']) ++ t) from rfl]
    rw [hh]
    simp only [List.nil_append]
    exact replFuel_nomatch 'j' ['s', 'o', 'n'] [] t f h (by omega)

theorem replace_json_mid (p : List Char) (hp : containsL jsonTok p = false) :
    pyReplace ((jsonTok ++ ('\n' :: p)) ++ ['\n']) jsonTok [] = '\n' :: (p ++ ['\n']) := by
  unfold pyReplace
  rw [show ((jsonTok ++ ('\n' :: p)) ++ ['\n']) = jsonTok ++ ('\n' :: (p ++ ['\n']))
    from by simp]
  exact replFuel_json_strip ('\n' :: (p ++ ['\n'])) _ (containsL_json_wrap p hp)
    (by simp [List.length_append])

theorem cleanContent_unfenced (p : String)
    (hfence : containsL fenceTok p.data = false)
    (hd1 : p.data.dropWhile pyWs = p.data)
    (hd2 : p.data.reverse.dropWhile pyWs = p.data.reverse) :
    cleanContent p = p.data := by
  simp only [cleanContent]
  rw [pyStripL_eq_self p.data hd1 hd2, hfence]
  simp

theorem cleanContent_fenced (p : String)
    (hjson : containsL jsonTok p.data = false)
    (hfence : containsL fenceTok p.data = false)
    (hd1 : p.data.dropWhile pyWs = p.data)
    (hd2 : p.data.reverse.dropWhile pyWs = p.data.reverse) :
    cleanContent ("```json\n" ++ p ++ "\n```") = p.data := by
  have hdata : ("```json\n" ++ p ++ "\n```").data
      = (fenceTok ++ ((jsonTok ++ ('\n' :: p.data)) ++ ['\n'])) ++ fenceTok := by
    rw [strData_append, strData_append]
    rw [show ("```json\n" : String).data = fenceTok ++ (jsonTok ++ ['\n']) from rfl,
        show ("\n```" : String).data = '\n' :: fenceTok from rfl]
    simp
  have hstrip : pyStripL (("```json\n" ++ p ++ "\n```").data)
      = (fenceTok ++ ((jsonTok ++ ('\n' :: p.data)) ++ ['\n'])) ++ fenceTok := by
    rw [hdata]
    exact strip_fencewrap ((jsonTok ++ ('\n' :: p.data)) ++ ['\n'])
  have hcont : containsL fenceTok
      ((fenceTok ++ ((jsonTok ++ ('\n' :: p.data)) ++ ['\n'])) ++ fenceTok) = true := by
    rw [List.append_assoc]
    exact containsL_self_append bq [bq, bq]
      ((((jsonTok ++ ('\n' :: p.data)) ++ ['\n'])) ++ fenceTok)
  have hsplit : pySplit
      ((fenceTok ++ ((jsonTok ++ ('\n' :: p.data)) ++ ['\n'])) ++ fenceTok) fenceTok
      = [[], (jsonTok ++ ('\n' :: p.data)) ++ ['\n'], []] := by
    unfold pySplit
    rw [show ((fenceTok ++ ((jsonTok ++ ('\n' :: p.data)) ++ ['\n'])) ++ fenceTok).length + 1
        = (p.data.length + 12) + 1 from by
      simp only [fenceTok, jsonTok, List.length_append, List.length_cons, List.length_nil]
      omega]
    rw [show (fenceTok ++ ((jsonTok ++ ('\n' :: p.data)) ++ ['\n'])) ++ fenceTok
        = fenceTok ++ ((((jsonTok ++ ('\n' :: p.data)) ++ ['\n'])) ++ fenceTok)
        from List.append_assoc _ _ _]
    rw [splitFuel_head_fence ((((jsonTok ++ ('\n' :: p.data)) ++ ['\n'])) ++ fenceTok)
      (p.data.length + 12) []]
    rw [splitFuel_until_fence (jsonTok ++ ('\n' :: p.data)) (p.data.length + 12) []
      (containsL_fence_mid p.data hfence)
      (by simp only [jsonTok, List.length_append, List.length_cons, List.length_nil]; omega)]
    simp
  simp only [cleanContent]
  rw [hstrip, hcont]
  rw [if_pos rfl]
  rw [hsplit]
  rw [show ([[], (jsonTok ++ ('\n' :: p.data)) ++ ['\n'], []] : List (List Char)).getD 1 []
      = (jsonTok ++ ('\n' :: p.data)) ++ ['\n'] from rfl]
  rw [replace_json_mid p.data hjson]
  exact strip_newline_wrap p.data hd1 hd2

/-- The pipeline both orchestrators run after normalising the raw response:
parse, Stage-A strict validation, Stage-B repair, Stage-C default. -/
def stagedResult (stb : Json → Except Unit Json) (dflt : Json) (o : Option Json) :
    Except String Json :=
  match o with
  | none => .ok dflt
  | some j =>
    match ProcurementData.model_validate j with
    | .ok r => .ok r.model_dump
    | .error _ =>
      match stb j with
      | .ok j' => .ok j'
      | .error _ => .ok dflt

theorem extract_ok_as_staged_test (a : String) :
    TestApp.extract_data_via_ai (.ok a)
      = stagedResult TestApp.stageB TestApp.stageCDefault (parseJson (cleanContent a)) := rfl

theorem extract_ok_as_staged_src (a : String) :
    SrcApp.extract_data_via_ai (.ok a)
      = stagedResult SrcApp.stageB SrcApp.stageCDefault (parseJson (cleanContent a)) := rfl

/-- C8 amended: when a fence occurs, the normaliser keeps the text between
the first and second ``` fence and removes EVERY occurrence of the
substring "json" from it (not just a leading language tag), then strips.
For payloads that contain no "json" substring, no fence, and no
leading/trailing whitespace, wrapping in a ```json fence is harmless: the
wrapped and unwrapped responses normalise to the same text and both
orchestrator variants return identical results on them. -/
theorem fence_wrap_equivalence : ∀ p : String,
    containsL jsonTok p.data = false →
    containsL fenceTok p.data = false →
    p.data.dropWhile pyWs = p.data →
    p.data.reverse.dropWhile pyWs = p.data.reverse →
    cleanContent ("```json\n" ++ p ++ "\n```") = p.data ∧
    cleanContent p = p.data ∧
    TestApp.extract_data_via_ai (.ok ("```json\n" ++ p ++ "\n```"))
      = TestApp.extract_data_via_ai (.ok p) ∧
    SrcApp.extract_data_via_ai (.ok ("```json\n" ++ p ++ "\n```"))
      = SrcApp.extract_data_via_ai (.ok p) := by
  intro p hj hf h1 h2
  have hW := cleanContent_fenced p hj hf h1 h2
  have hU := cleanContent_unfenced p hf h1 h2
  have hcc : cleanContent ("```json\n" ++ p ++ "\n```") = cleanContent p := by
    rw [hW, hU]
  refine ⟨hW, hU, ?_, ?_⟩
  · rw [extract_ok_as_staged_test, extract_ok_as_staged_test, hcc]
  · rw [extract_ok_as_staged_src, extract_ok_as_staged_src, hcc]

/-- C8 witness: `fence_wrap_equivalence` applied at the concrete payload
`\x7b"a": 1\x7d`, whose side conditions hold by computation. -/
theorem fence_wrap_equivalence_witness :
    cleanContent ("```json\n" ++ "\x7b\"a\": 1\x7d" ++ "\n```")
      = ("\x7b\"a\": 1\x7d" : String).data ∧
    cleanContent "\x7b\"a\": 1\x7d" = ("\x7b\"a\": 1\x7d" : String).data ∧
    TestApp.extract_data_via_ai (.ok ("```json\n" ++ "\x7b\"a\": 1\x7d" ++ "\n```"))
      = TestApp.extract_data_via_ai (.ok "\x7b\"a\": 1\x7d") ∧
    SrcApp.extract_data_via_ai (.ok ("```json\n" ++ "\x7b\"a\": 1\x7d" ++ "\n```"))
      = SrcApp.extract_data_via_ai (.ok "\x7b\"a\": 1\x7d") :=
  fence_wrap_equivalence "\x7b\"a\": 1\x7d" (by decide) (by decide) (by decide) (by decide)

/-- A syntactically valid, fully populated response whose `title` field is
the string "json". -/
def c8payload : String :=
  "\x7b\"title\":\"json\",\"vendor_name\":\"V\",\"vat_id\":\"X\",\"total_cost\":1,\"extracted_description_text\":\"D\",\"order_lines\":[]\x7d"

/-- C8 counterexample: the normaliser does not merely drop a leading
language tag — `.replace("json", "")` deletes the substring "json" from
the payload itself, so wrapping the same response in a ```json fence
changes the extracted record: the title "json" becomes "". -/
theorem fence_strip_json_removal_cex :
    asStr (okObjField (TestApp.extract_data_via_ai (.ok c8payload)) "title")
      = some "json" ∧
    asStr (okObjField (TestApp.extract_data_via_ai
      (.ok ("```json\n" ++ c8payload ++ "\n```"))) "title") = some "" ∧
    TestApp.extract_data_via_ai (.ok ("```json\n" ++ c8payload ++ "\n```"))
      ≠ TestApp.extract_data_via_ai (.ok c8payload) := by
  have h0 : asStr (okObjField (TestApp.extract_data_via_ai (.ok c8payload)) "title")
      = some "json" := rfl
  have h2 : asStr (okObjField (TestApp.extract_data_via_ai
      (.ok ("```json\n" ++ c8payload ++ "\n```"))) "title") = some "" := rfl
  refine ⟨h0, h2, fun h => ?_⟩
  rw [h, h0] at h2
  simp at h2
